import Mathlib

/-!
Verification development for the price-scraper core of the repository
(`app/scraper.py`, with the country→currency table from `app/search_engines.py`
and the result model from `app/models.py`).

The Python source is shallowly embedded as executable Lean definitions:

* Python strings are `String`, handled through their `List Char` data
  (operations such as `lower`, `strip`, `split` are re-implemented on
  character lists so that every definition reduces in the kernel;
  `lower`/`upper` act on ASCII letters, which covers every string the
  code manipulates);
* Python floats are modelled by `PyFloat`: exact rationals for finite
  values (the declared exact-rational model — rounding of decimal
  literals to binary doubles is outside the model), signed infinities,
  and NaN, with IEEE comparison semantics (every comparison with NaN is
  false);
* `float(s)` applied to a price string is modelled by the partial parser
  `parseFloat`, covering the `float()` grammar — optional surrounding
  whitespace and sign, `inf`/`infinity`/`nan` case-insensitive, decimal
  literals with optional fractional part and exponent, PEP-515
  underscores — over ASCII digits (CPython additionally maps Unicode
  decimal digits; no judged statement depends on those);
* a fetched page is modelled by `Soup`: the outcome of the HTTP GET plus the
  parsed document restricted to exactly the queries the four extraction
  strategies perform (JSON-LD scripts, the meta tags that are looked up,
  the texts of the name/price selector hits, `data-price` attributes, and
  the Amazon-specific selector hits);
* the regular-expression searches of `extract_price_from_text` and
  `extract_amazon_data` are modelled pattern by pattern by hand-rolled
  leftmost-match scanners that follow the greedy/backtracking semantics of
  `re.search` for those six fixed patterns;
* exceptions are modelled by `Option`: a per-candidate failure
  (timeout, transport error, or any exception inside the `try` block of
  `scrape_site`) is a `PageOutcome` variant, and the `float()` conversion
  inside `fetch_prices`, which is the one place an exception can escape the
  aggregate call, makes `fetch_prices` return `Option (List ProductResult)`;
* `asyncio.gather` returns the per-task results in task order, so the
  concurrent fan-out/fan-in is modelled by mapping `scrape_site` over the
  candidate list in order; Python `list.sort` is stable and compares keys
  with IEEE `<` only, which the stable `List.insertionSort` under the
  comparator `¬ (b < a)` models — exactly so on NaN-free keys (all stable
  sorts under a total preorder agree with Timsort, and `insertionSort`
  also evaluates in the kernel), while on NaN-bearing keys Timsort's
  binary insertion may arrange elements differently, so order-sensitive
  statements are confined to NaN-free runs and the one NaN-bearing
  concrete input below is checked against the observed CPython output.
-/

/-! ## String helpers (models of the Python string operations used) -/

/-- Model of Python `str.lower()` (ASCII range). -/
def lowerStr (s : String) : String := ⟨s.data.map Char.toLower⟩

/-- Model of Python `str.upper()` (ASCII range). -/
def upperStr (s : String) : String := ⟨s.data.map Char.toUpper⟩

/-- Substring test on character lists: does `needle` occur inside `hay`? -/
def containsSub : List Char → List Char → Bool
  | needle, hay =>
    needle.isPrefixOf hay ||
      match hay with
      | [] => false
      | _ :: t => containsSub needle t

/-- Model of the Python containment test `sub in hay` on strings.
The empty string is contained in every string, as in Python. -/
def strContains (hay sub : String) : Bool := containsSub sub.data hay.data

/-- Model of Python `str.strip()`: remove surrounding whitespace. -/
def pyStrip (s : String) : String :=
  ⟨((s.data.dropWhile Char.isWhitespace).reverse.dropWhile Char.isWhitespace).reverse⟩

/-- Tokenisation on character lists: maximal runs of non-whitespace,
single left-to-right pass with the current token accumulated in reverse. -/
def splitWsGo : List Char → List Char → List (List Char)
  | [], cur => if cur.isEmpty then [] else [cur.reverse]
  | c :: rest, cur =>
    if c.isWhitespace then
      if cur.isEmpty then splitWsGo rest [] else cur.reverse :: splitWsGo rest []
    else splitWsGo rest (c :: cur)

/-- Model of Python `str.split()` with no argument: split on whitespace runs,
discarding empty pieces. -/
def pySplit (s : String) : List String := (splitWsGo s.data []).map String.mk

/-- Truthiness of a Python variable holding either `None` or a string:
falsy iff `None` or the empty string. -/
def pyTruthy : Option String → Bool
  | none => false
  | some s => s ≠ ""

/-- Model of the Python idiom `x or default` for `x` a string-or-`None`
variable: the default is used iff `x` is falsy. -/
def pyOr (x : Option String) (dflt : String) : String :=
  match x with
  | some s => if s ≠ "" then s else dflt
  | none => dflt

/-! ## Model of the price/currency lexer `extract_price_from_text`

The Python function tries six regular expressions in order with `re.search`
(case-insensitive) and, on the first match, strips thousands separators from
group 1 and determines the currency by scanning its symbol table in insertion
order for a substring of the whole text, defaulting to `"USD"`.

Each pattern is modelled by a leftmost-match scanner that reproduces the
greedy/backtracking behaviour of that particular pattern. -/

/-- Case-insensitive character comparison (`re.IGNORECASE`). -/
def lowEq (a b : Char) : Bool := a.toLower = b.toLower

/-- Case-insensitive literal match; returns the remainder on success. -/
def litCI : List Char → List Char → Option (List Char)
  | [], cs => some cs
  | _ :: _, [] => none
  | l :: ls, c :: cs => if lowEq l c then litCI ls cs else none

/-- Remainder after greedily consuming `\s*`. -/
def dropWs (cs : List Char) : List Char := cs.dropWhile Char.isWhitespace

/-- Character class `[0-9,]`. -/
def isNumComma (c : Char) : Bool := c.isDigit || c = ','

/-- Model of the capture group `([0-9,]+(?:\.[0-9]{2})?)`: a non-empty run of
digits and commas, greedily extended by a decimal point with exactly two
digits when present.  Returns the captured characters and the remainder. -/
def numGroup (cs : List Char) : Option (List Char × List Char) :=
  let run := cs.takeWhile isNumComma
  let rest := cs.dropWhile isNumComma
  if run.isEmpty then none
  else
    match rest with
    | '.' :: a :: b :: r =>
      if a.isDigit && b.isDigit then some (run ++ ['.', a, b], r) else some (run, rest)
    | _ => some (run, rest)

/-- Pattern 1 anchored at the current position:
`(?:(?:US\s*)?[$]|USD)\s*([0-9,]+(?:\.[0-9]{2})?)`. -/
def anchored1 (cs : List Char) : Option (List Char) :=
  let afterSym : Option (List Char) :=
    (match litCI ['u', 's'] cs with
     | some r1 =>
       match dropWs r1 with
       | '$' :: r2 => some r2
       | _ => none
     | none => none)
    <|> (match cs with
         | '$' :: r => some r
         | _ => none)
    <|> litCI ['u', 's', 'd'] cs
  match afterSym with
  | some r => (numGroup (dropWs r)).map Prod.fst
  | none => none

/-- Pattern 2 anchored: `(?:₹|Rs\.?|INR)\s*([0-9,]+(?:\.[0-9]{2})?)`.
The optional dot after `Rs` is greedy with fallback. -/
def anchored2 (cs : List Char) : Option (List Char) :=
  (match cs with
   | '₹' :: r => (numGroup (dropWs r)).map Prod.fst
   | _ => none)
  <|> (match litCI ['r', 's'] cs with
       | some r =>
         (match r with
          | '.' :: r2 => (numGroup (dropWs r2)).map Prod.fst
          | _ => none)
         <|> (numGroup (dropWs r)).map Prod.fst
       | none => none)
  <|> (match litCI ['i', 'n', 'r'] cs with
       | some r => (numGroup (dropWs r)).map Prod.fst
       | none => none)

/-- Pattern 3 anchored: `(?:£|GBP)\s*([0-9,]+(?:\.[0-9]{2})?)`. -/
def anchored3 (cs : List Char) : Option (List Char) :=
  (match cs with
   | '£' :: r => (numGroup (dropWs r)).map Prod.fst
   | _ => none)
  <|> (match litCI ['g', 'b', 'p'] cs with
       | some r => (numGroup (dropWs r)).map Prod.fst
       | none => none)

/-- Pattern 4 anchored: `(?:€|EUR)\s*([0-9,]+(?:\.[0-9]{2})?)`. -/
def anchored4 (cs : List Char) : Option (List Char) :=
  (match cs with
   | '€' :: r => (numGroup (dropWs r)).map Prod.fst
   | _ => none)
  <|> (match litCI ['e', 'u', 'r'] cs with
       | some r => (numGroup (dropWs r)).map Prod.fst
       | none => none)

/-- Currency codes of pattern 5. -/
def patternCodes : List (List Char) :=
  [['u', 's', 'd'], ['e', 'u', 'r'], ['g', 'b', 'p'], ['i', 'n', 'r'],
   ['j', 'p', 'y'], ['c', 'a', 'd'], ['a', 'u', 'd'], ['c', 'n', 'y']]

/-- Pattern 5 anchored:
`([0-9,]+(?:\.[0-9]{2})?)\s*(?:USD|EUR|GBP|INR|JPY|CAD|AUD|CNY)`.
Backtracking into the greedy group can never rescue a failed code match
(the codes start with letters, the group and the gap consume none), so the
greedy parse is exact. -/
def anchored5 (cs : List Char) : Option (List Char) :=
  match numGroup cs with
  | some (g, rest) =>
    if patternCodes.any (fun cd => (litCI cd (dropWs rest)).isSome) then some g else none
  | none => none

/-- Word character for `\b` (ASCII `\w`; the currency symbols involved are
non-word characters both here and in Python). -/
def wordChar (c : Char) : Bool := c.isAlphanum || c = '_'

/-- Word boundary after a word character: the remainder starts with a
non-word character or is empty. -/
def boundaryOk : List Char → Bool
  | [] => true
  | c :: _ => !wordChar c

/-- Tail of pattern 6 after the leading digits: `(?:,[0-9]{3})*(?:\.[0-9]{2})?\b`
with the backtracking `re` performs (drop comma groups from the right, then
try the optional cents part, then the bare position).  Returns the consumed
characters. -/
def optThen (cs : List Char) : Option (List Char) :=
  match cs with
  | '.' :: a :: b :: rest =>
    if a.isDigit && b.isDigit && boundaryOk rest then some ['.', a, b]
    else if boundaryOk cs then some [] else none
  | _ => if boundaryOk cs then some [] else none

/-- Greedy `(?:,[0-9]{3})*` followed by `optThen`, with backtracking. -/
def starThen : List Char → Option (List Char)
  | ',' :: a :: b :: c :: rest =>
    if a.isDigit && b.isDigit && c.isDigit then
      match starThen rest with
      | some t => some (',' :: a :: b :: c :: t)
      | none => optThen (',' :: a :: b :: c :: rest)
    else optThen (',' :: a :: b :: c :: rest)
  | cs => optThen cs

/-- Pattern 6 anchored at a position whose preceding character is not a word
character: `\b([0-9]{1,3}(?:,[0-9]{3})*(?:\.[0-9]{2})?)\b`, with the `{1,3}`
quantifier backtracking from three digits down to one. -/
def anchored6 (cs : List Char) : Option (List Char) :=
  let ds := cs.takeWhile Char.isDigit
  let tryK : Nat → Option (List Char) := fun k =>
    if k = 0 || ds.length < k then none
    else (starThen (cs.drop k)).map (fun t => cs.take k ++ t)
  tryK 3 <|> tryK 2 <|> tryK 1

/-- Leftmost search driver for the anchored patterns 1–5. -/
def searchA (anch : List Char → Option (List Char)) : List Char → Option (List Char)
  | [] => anch []
  | c :: rest => anch (c :: rest) <|> searchA anch rest

/-- Leftmost search driver for pattern 6, tracking the previous character
for the leading `\b`. -/
def search6 : Option Char → List Char → Option (List Char)
  | _, [] => none
  | prev, c :: rest =>
    (if (match prev with
         | none => true
         | some p => !wordChar p) && c.isDigit then
       anchored6 (c :: rest)
     else none)
    <|> search6 (some c) rest

/-- Results of the six ordered pattern searches on a text. -/
def patternSearches (cs : List Char) : List (Option (List Char)) :=
  [searchA anchored1 cs, searchA anchored2 cs, searchA anchored3 cs,
   searchA anchored4 cs, searchA anchored5 cs, search6 none cs]

/-- Currency symbol table of `extract_price_from_text`, in the insertion
order of the Python dict. -/
def currency_patterns : List (String × String) :=
  [("$", "USD"), ("₹", "INR"), ("£", "GBP"), ("€", "EUR"), ("¥", "JPY"),
   ("C$", "CAD"), ("A$", "AUD"), ("元", "CNY"), ("USD", "USD"), ("INR", "INR")]

/-- First symbol-table hit that occurs (case-sensitively) in the text. -/
def tableLookup (text : String) : Option String :=
  (currency_patterns.find? (fun p => strContains text p.1)).map Prod.snd

/-- Model of `extract_price_from_text`: the first pattern that matches
yields the price (group 1 with commas removed); the currency is the first
symbol-table hit in the whole text, defaulting to `"USD"`. -/
def extract_price_from_text (text : String) : Option (String × String) :=
  if text = "" then none
  else
    match (patternSearches text.data).findSome? id with
    | none => none
    | some g => some (⟨g.filter (fun c => c ≠ ',')⟩, (tableLookup text).getD "USD")

/-- Model of the Amazon price regular expression `[\d,]+\.?\d*` under
`re.search`: leftmost non-empty run of digits and commas, then an optional
dot with a greedy digit run. -/
def amazonPriceSearch : List Char → Option (List Char)
  | [] => none
  | c :: rest =>
    if isNumComma c then
      let run := (c :: rest).takeWhile isNumComma
      let r1 := (c :: rest).dropWhile isNumComma
      let tail :=
        match r1 with
        | '.' :: r2 => '.' :: r2.takeWhile Char.isDigit
        | _ => ([] : List Char)
      some (run ++ tail)
    else amazonPriceSearch rest

/-! ## Model of Python floats and of `float(s)`

A Python float is modelled by `PyFloat`: an exact rational (the declared
exact-rational model of finite doubles — rounding of decimal literals to
binary doubles is outside the model, as is overflow of huge exponents to
infinity), a signed infinity, or NaN.  Comparisons follow IEEE-754 as
CPython implements them: every comparison with NaN is false, and the
remaining values are totally ordered with `-inf` at the bottom and `inf`
at the top.

`parseFloat` models `float(s)` on strings: optional surrounding
whitespace, an optional sign, then `inf`/`infinity`/`nan`
(case-insensitive) or a decimal literal with optional fractional part and
optional exponent, with underscores allowed between two digits (PEP 515).
The one narrowing is that digits are ASCII digits, while CPython also
maps Unicode decimal digits; no judged statement depends on non-ASCII
digit strings.  `none` models `ValueError`. -/

/-- Python float value: an exact rational, a signed infinity (`true` is
negative), or NaN. -/
inductive PyFloat where
  | num : ℚ → PyFloat
  | inf : Bool → PyFloat
  | nan : PyFloat
deriving DecidableEq, Repr

/-- NaN test. -/
def PyFloat.isNan : PyFloat → Bool
  | .nan => true
  | _ => false

/-- Finiteness test (`math.isfinite`). -/
def PyFloat.isFinite : PyFloat → Bool
  | .num _ => true
  | _ => false

/-- IEEE `<` as CPython implements it: false whenever NaN is involved,
with `-inf` below and `inf` above every number. -/
def pyLt : PyFloat → PyFloat → Bool
  | .nan, _ => false
  | _, .nan => false
  | .inf true, .inf true => false
  | .inf true, .inf false => true
  | .inf true, .num _ => true
  | .inf false, _ => false
  | .num _, .inf false => true
  | .num _, .inf true => false
  | .num a, .num b => decide (a < b)

/-- IEEE `==` as CPython implements it: NaN equals nothing, not even
itself. -/
def pyEq : PyFloat → PyFloat → Bool
  | .num a, .num b => decide (a = b)
  | .inf a, .inf b => a == b
  | _, _ => false

/-- IEEE `<=`: `<` or `==` (hence false whenever NaN is involved). -/
def pyLe (a b : PyFloat) : Bool := pyLt a b || pyEq a b

/-- Numeric value of a digit run. -/
def digitsToNat (cs : List Char) : Nat :=
  cs.foldl (fun n c => n * 10 + (c.toNat - Char.toNat '0')) 0

/-- Signed integer from a sign flag and a magnitude. -/
def intOfSign (neg : Bool) (n : Nat) : Int := if neg then -(n : Int) else (n : Int)

/-- Underscore validation and removal for `float()` literals (PEP 515):
every underscore must sit between two ASCII digits. -/
def stripUnderscores : Option Char → List Char → Option (List Char)
  | _, [] => some []
  | prev, '_' :: rest =>
    match prev, rest with
    | some p, d :: _ =>
      if p.isDigit && d.isDigit then stripUnderscores (some '_') rest else none
    | _, _ => none
  | _, c :: rest =>
    match stripUnderscores (some c) rest with
    | some r => some (c :: r)
    | none => none

/-- Decimal part of the `float()` grammar after sign and underscore
removal: `digits [. digits] [e|E [sign] digits]`, at least one mantissa
digit, consumed to the end of the string.  Returns the exact value of
`±(ip.fp)·10^e` as a single `mkRat` fraction (the library rational
arithmetic is irreducible and would block kernel evaluation). -/
def parseDecimal (neg : Bool) (cs : List Char) : Option PyFloat :=
  let ip := cs.takeWhile Char.isDigit
  let r1 := cs.dropWhile Char.isDigit
  let fpPart : Option (List Char × List Char) :=
    match r1 with
    | '.' :: rest => some (rest.takeWhile Char.isDigit, rest.dropWhile Char.isDigit)
    | _ => some ([], r1)
  match fpPart with
  | none => none
  | some (fp, r2) =>
    if ip.isEmpty && fp.isEmpty then none
    else
      let expPart : Option Int :=
        match r2 with
        | [] => some 0
        | 'e' :: rest => parseExp rest
        | 'E' :: rest => parseExp rest
        | _ => none
      match expPart with
      | none => none
      | some e =>
        let M := digitsToNat (ip ++ fp)
        let k := fp.length
        if 0 ≤ e then
          some (.num (mkRat (intOfSign neg (M * 10 ^ e.toNat)) (10 ^ k)))
        else
          some (.num (mkRat (intOfSign neg M) (10 ^ (k + (-e).toNat))))
where
  /-- Exponent: optional sign then a non-empty digit run to the end. -/
  parseExp (cs : List Char) : Option Int :=
    let sg : Bool × List Char :=
      match cs with
      | '+' :: r => (false, r)
      | '-' :: r => (true, r)
      | _ => (false, cs)
    if sg.2.isEmpty || !sg.2.all Char.isDigit then none
    else some (intOfSign sg.1 (digitsToNat sg.2))

/-- Model of Python `float(s)`: surrounding whitespace stripped, optional
sign, then `inf`/`infinity`/`nan` (case-insensitive) or a decimal literal,
with PEP-515 underscores; `none` where CPython raises `ValueError`. -/
def parseFloat (s : String) : Option PyFloat :=
  let trimmed :=
    (s.data.dropWhile Char.isWhitespace).reverse.dropWhile Char.isWhitespace |>.reverse
  match stripUnderscores none trimmed with
  | none => none
  | some cs =>
    let sg : Bool × List Char :=
      match cs with
      | '+' :: r => (false, r)
      | '-' :: r => (true, r)
      | _ => (false, cs)
    match litCI ['i', 'n', 'f', 'i', 'n', 'i', 't', 'y'] sg.2 with
    | some [] => some (.inf sg.1)
    | _ =>
      match litCI ['i', 'n', 'f'] sg.2 with
      | some [] => some (.inf sg.1)
      | _ =>
        match litCI ['n', 'a', 'n'] sg.2 with
        | some [] => some .nan
        | _ => parseDecimal sg.1 sg.2

/-! ## Data model

`ProductResult` is the pydantic model from `app/models.py`; `ExtractedRecord`
is the intermediate dict a strategy returns (its `currency` is `Option`
because a JSON-LD `priceCurrency: null` puts Python `None` there);
`Soup` is the parsed page restricted to the queries the strategies perform;
`PageOutcome` is what the candidate's HTTP GET produced, with `exn` covering
any exception raised inside the `try` block of `scrape_site` (transport
errors and extraction exceptions alike). -/

/-- Scalar JSON value as it can appear in a JSON-LD price field. -/
inductive JVal where
  | jnull : JVal
  | jstr : String → JVal
  | jint : Int → JVal
deriving DecidableEq, Repr

/-- Python truthiness of a JSON scalar. -/
def jTruthy : JVal → Bool
  | .jnull => false
  | .jstr s => s ≠ ""
  | .jint n => n ≠ 0

/-- Model of Python `str(v)` on a JSON scalar. -/
def jStr : JVal → String
  | .jnull => "None"
  | .jstr s => s
  | .jint n => toString n

/-- Relevant content of one `application/ld+json` script after `json.loads`
and the list-flattening the code performs.  `isProduct` is the
`@type == 'Product'` test; the `offers` fields are the keys read from the
(first) offers object, `none` meaning the key is absent.
`priceCurrency` distinguishes an absent key (`none`) from a JSON `null`
(`some none`), because the code defaults an absent key to `"USD"` while a
`null` reaches the record as Python `None`. -/
structure JsonLdScriptData where
  isProduct : Bool := false
  name : Option String := none
  url : Option String := none
  offersPrice : Option JVal := none
  offersLowPrice : Option JVal := none
  offersPriceCurrency : Option (Option String) := none
  offersAvailability : Option String := none
deriving Repr

/-- Intermediate product dict a strategy returns. -/
structure ExtractedRecord where
  link : String
  price : String
  currency : Option String
  productName : String
  availability : Option String := none
deriving DecidableEq, Repr

/-- Parsed page, restricted to exactly the lookups the four strategies make.
A `none` entry means the corresponding tag/element was not found; a found
tag carries the value of its `content` attribute (defaulted to `""` by the
code).  `htmlNames` lists the stripped text of the first hit of each name
selector in selector order; `htmlPriceTexts` lists, per price selector, the
stripped texts of all its hits; `dataPriceAttrs` lists the values of
`data-price` attributes; `amazonPriceTexts` lists the stripped text of the
first hit of each Amazon price selector. -/
structure Soup where
  jsonLdScripts : List JsonLdScriptData := []
  ogTitle : Option String := none
  priceAmount : Option String := none
  priceCurrencyMeta : Option String := none
  twitterLabel1 : Option String := none
  twitterData1 : Option String := none
  twitterLabel2 : Option String := none
  twitterData2 : Option String := none
  htmlNames : List (Option String) := []
  htmlPriceTexts : List (List String) := []
  dataPriceAttrs : List String := []
  amazonTitle : Option String := none
  amazonPriceTexts : List (Option String) := []
deriving Repr

/-- Final result model (`app/models.py`). -/
structure ProductResult where
  link : String
  price : String
  currency : String
  productName : String
  source : Option String := none
  availability : Option String := none
deriving DecidableEq, Repr

/-- Outcome of the HTTP GET for one candidate.  `http` carries the status
code and the parsed body; `timeout` is `httpx.TimeoutException`; `exn` is
any other exception raised inside the `try` block of `scrape_site`. -/
inductive PageOutcome where
  | timeout : PageOutcome
  | exn : PageOutcome
  | http : Nat → Soup → PageOutcome

/-- One entry of the `search_urls` list handed to `fetch_prices`, together
with what the network returns for its URL (the page is part of the input of
the model, standing for the state of the outside world). -/
structure Candidate where
  name : String
  url : String
  outcome : PageOutcome

/-! ## Extraction strategies -/

/-- Record produced by one JSON-LD script, if any: the script must declare
`@type` Product and a truthy `price` (falling back to `lowPrice` via
Python `or`). -/
def scriptYield (url : String) (d : JsonLdScriptData) : Option ExtractedRecord :=
  if d.isProduct then
    let a := d.offersPrice.getD JVal.jnull
    let pr := if jTruthy a then a else d.offersLowPrice.getD JVal.jnull
    if jTruthy pr then
      some { link := d.url.getD url
             price := jStr pr
             currency :=
               match d.offersPriceCurrency with
               | none => some "USD"
               | some v => v
             productName := pyStrip (d.name.getD "")
             availability := some (d.offersAvailability.getD "") }
    else none
  else none

/-- Model of `extract_from_json_ld`: first script that yields a record. -/
def extract_from_json_ld (soup : Soup) (url : String) : Option ExtractedRecord :=
  soup.jsonLdScripts.findSome? (scriptYield url)

/-- Twitter label/data pair scan for one index: the label must exist and
contain `price` (lower-cased); then the data tag's content is run through
the price lexer. -/
def twitterPrice (label data : Option String) : Option (String × String) :=
  match label with
  | none => none
  | some lc =>
    if strContains (lowerStr lc) "price" then
      match data with
      | none => none
      | some dc => extract_price_from_text dc
    else none

/-- Model of `extract_from_meta_tags`: Open Graph title,
`product:price:amount` / `product:price:currency`, with a Twitter
label/data fallback (indices 1 and 2) when the price is falsy.  Succeeds
only when both a truthy name and a truthy price were found. -/
def extract_from_meta_tags (soup : Soup) (url : String) : Option ExtractedRecord :=
  let product_name : Option String := soup.ogTitle
  let price0 : Option String := soup.priceAmount
  let currency0 : Option String := soup.priceCurrencyMeta
  let pc : Option String × Option String :=
    if pyTruthy price0 then (price0, currency0)
    else
      match twitterPrice soup.twitterLabel1 soup.twitterData1 with
      | some r => (some r.1, some r.2)
      | none =>
        match twitterPrice soup.twitterLabel2 soup.twitterData2 with
        | some r => (some r.1, some r.2)
        | none => (price0, currency0)
  if pyTruthy product_name && pyTruthy pc.1 then
    some { link := url
           price := pc.1.getD ""
           currency := some (pyOr pc.2 "USD")
           productName := product_name.getD "" }
  else none

/-- Selector-by-selector price scan of `extract_from_html_patterns`: within
a selector, the first element whose text the lexer accepts assigns the
`price_found`/`currency_found` pair and stops that selector; the outer loop
stops only when the assigned price is truthy (a price that lexes to the
empty string keeps scanning later selectors while retaining the
assignment). -/
def scanPrices : List (List String) → Option (String × String) → Option (String × String)
  | [], acc => acc
  | sel :: rest, acc =>
    match sel.findSome? extract_price_from_text with
    | some r => if r.1 ≠ "" then some r else scanPrices rest (some r)
    | none => scanPrices rest acc

/-- Combined price pass of `extract_from_html_patterns`: the selector scan,
then the `data-price` attribute fallback when the scanned price is falsy.
Returns the Python pair `(price_found, currency_found)`. -/
def htmlPricePass (sels : List (List String)) (attrs : List String) :
    Option String × Option String :=
  match scanPrices sels none with
  | some r => if r.1 ≠ "" then (some r.1, some r.2) else (attrs.find? (fun v => v ≠ ""), some r.2)
  | none => (attrs.find? (fun v => v ≠ ""), none)

/-- Model of `extract_from_html_patterns`: first name-selector text longer
than five characters, the price pass, and success only with both present
(currency defaults to `"USD"` when the pair's currency is falsy). -/
def extract_from_html_patterns (soup : Soup) (url query : String) : Option ExtractedRecord :=
  let product_name := (soup.htmlNames.filterMap id).find? (fun t => decide (5 < t.length))
  let pf := htmlPricePass soup.htmlPriceTexts soup.dataPriceAttrs
  if pyTruthy product_name && pyTruthy pf.1 then
    some { link := url
           price := pf.1.getD ""
           currency := some (pyOr pf.2 "USD")
           productName := product_name.getD "" }
  else none

/-- Strip thousands separators, as `replace(',', '')` does. -/
def stripCommas (s : String) : String := ⟨s.data.filter (fun c => c ≠ ',')⟩

/-- Model of `extract_amazon_data`: Amazon title selector text, then the
first Amazon price selector whose element text matches the Amazon price
regular expression (commas stripped, currency fixed to `"USD"`); success
only with both name and price truthy. -/
def extract_amazon_data (soup : Soup) (url : String) : Option ExtractedRecord :=
  let product_name := soup.amazonTitle
  let price := (soup.amazonPriceTexts.filterMap id).findSome?
    (fun t => (amazonPriceSearch t.data).map (fun m => stripCommas ⟨m⟩))
  if pyTruthy product_name && pyTruthy price then
    some { link := url
           price := price.getD ""
           currency := some "USD"
           productName := product_name.getD "" }
  else none

/-! ## Relevance scorer -/

/-- Model of `get_product_similarity` (floats as exact rationals).
Empty product name scores 0; full lower-cased substring containment scores
1; otherwise the fraction of distinct query tokens present among the
product tokens, plus 0.3 per digit-bearing query token occurring as a
substring of the lower-cased product name, clamped to 1.  The sum
`matchCount / L + important · 3/10` is assembled as the single fraction
`(10·matchCount + 3·important·L) / (10·L)` via `mkRat`, because the
library's rational addition and division are irreducible and would block
kernel evaluation; `similarity_formula` below recovers the textbook
shape. -/
def get_product_similarity (query product_name : String) : ℚ :=
  if product_name = "" then 0
  else
    let query_lower := lowerStr query
    let product_lower := lowerStr product_name
    if strContains product_lower query_lower then 1
    else
      let query_tokens := (pySplit query_lower).eraseDups
      let product_tokens := (pySplit product_lower).eraseDups
      if query_tokens.isEmpty then 0
      else
        let matchCount := (query_tokens.filter (fun t => product_tokens.contains t)).length
        let important_tokens := query_tokens.filter (fun t => t.data.any Char.isDigit)
        let important_matches :=
          (important_tokens.filter (fun t => strContains product_lower t)).length
        min (mkRat (10 * matchCount + 3 * important_matches * query_tokens.length)
          (10 * query_tokens.length)) 1

/-- Reference scorer, written from the words of § 4.3 of the spec:
tokenize both strings by whitespace, lower-cased; if the full query string
occurs as a substring of the product name, the score is 1.0; otherwise the
fraction of query tokens also present in the product-name token set, plus a
bonus of 0.3 per query token that contains a digit and is present in the
product name, clamped to 1.0; an empty product name always scores 0.0. -/
def specScore (query productName : String) : ℚ :=
  if productName = "" then 0
  else if strContains (lowerStr productName) (lowerStr query) then 1
  else
    let qtoks := (pySplit (lowerStr query)).eraseDups
    let ptoks := (pySplit (lowerStr productName)).eraseDups
    let frac : ℚ := ((qtoks.filter (fun t => ptoks.contains t)).length : ℚ) / (qtoks.length : ℚ)
    let bonus : ℚ :=
      ((qtoks.filter (fun t => t.data.any Char.isDigit &&
          strContains (lowerStr productName) t)).length : ℚ) * (3 / 10)
    min (frac + bonus) 1

/-! ## Country→currency table (`app/search_engines.py`) -/

/-- Currency map of `app/search_engines.py`. -/
def CURRENCY_MAP : List (String × String) :=
  [("US", "USD"), ("IN", "INR"), ("UK", "GBP"), ("CA", "CAD"),
   ("AU", "AUD"), ("DE", "EUR"), ("FR", "EUR"), ("JP", "JPY"),
   ("CN", "CNY"), ("BR", "BRL"), ("MX", "MXN"), ("ES", "EUR"),
   ("IT", "EUR"), ("NL", "EUR"), ("SE", "SEK"), ("SG", "SGD"),
   ("AE", "AED"), ("SA", "SAR"), ("ZA", "ZAR"), ("KR", "KRW")]

/-- Model of `get_currency`: dictionary lookup on the upper-cased country,
defaulting to `"USD"`. -/
def get_currency (country : String) : String :=
  ((CURRENCY_MAP.find? (fun p => p.1 = upperStr country)).map Prod.snd).getD "USD"

/-! ## Per-candidate scrape (`scrape_site`) -/

/-- Model of `urlparse(url).netloc` for the `scheme://host/…` URLs the
pipeline handles: the text between the first `//` and the following
delimiter, empty when the URL has no `//`. -/
def netloc (url : String) : String :=
  let rec after2Slashes : List Char → Option (List Char)
    | '/' :: '/' :: rest => some rest
    | _ :: rest => after2Slashes rest
    | [] => none
  match after2Slashes url.data with
  | some rest => ⟨rest.takeWhile (fun c => c ≠ '/' && c ≠ '?' && c ≠ '#')⟩
  | none => ""

/-- Extraction cascade of `scrape_site`, in its fixed priority order:
JSON-LD, then meta tags, then the Amazon strategy (only when the domain
contains `amazon`), then generic HTML patterns.  The first strategy that
yields a record wins. -/
def run_extraction (soup : Soup) (url query domain : String) : Option ExtractedRecord :=
  match extract_from_json_ld soup url with
  | some r => some r
  | none =>
    match extract_from_meta_tags soup url with
    | some r => some r
    | none =>
      match (if strContains domain "amazon" then extract_amazon_data soup url else none) with
      | some r => some r
      | none => extract_from_html_patterns soup url query

/-- Result assembly of `scrape_site` once a record passed the similarity
gate: backfill a falsy currency with the country default and set the
source to the site name. -/
def mkProductResult (rec : ExtractedRecord) (country site_name : String) : ProductResult :=
  { link := rec.link
    price := rec.price
    currency := pyOr rec.currency (get_currency country)
    productName := rec.productName
    source := some site_name
    availability := rec.availability }

/-- Model of `scrape_site` for one candidate.  A timeout or any exception
inside the `try` block yields `none`; a response with a status other than
200 yields `none`; otherwise the extraction cascade runs and its record is
accepted iff the similarity score meets the 0.3 threshold.  The
`index` argument only rotates outbound request headers, which the model's
page oracle ignores. -/
def scrape_site (c : Candidate) (query country : String) (index : Nat) : Option ProductResult :=
  match c.outcome with
  | .timeout => none
  | .exn => none
  | .http status soup =>
    if status ≠ 200 then none
    else
      let domain := lowerStr (netloc c.url)
      match run_extraction soup c.url query domain with
      | none => none
      | some rec =>
        if mkRat 3 10 ≤ get_product_similarity query rec.productName then
          some (mkProductResult rec country c.name)
        else none

/-! ## Aggregation (`fetch_prices`) -/

/-- Normalised-name component of the deduplication key:
`''.join(productName.lower().split())[:30]`. -/
def dedupName (name : String) : String :=
  ⟨(((lowerStr name).data.filter (fun c => !c.isWhitespace)).take 30)⟩

/-- Python `==` on deduplication keys, as the membership test of the
`seen` set performs it: structural equality on the name component and
IEEE equality on the float component (so a NaN-priced key equals no key,
not even itself, and is never considered already seen). -/
def keyEq (k1 k2 : String × PyFloat) : Bool := k1.1 = k2.1 && pyEq k1.2 k2.2

/-- Deduplication pass of `fetch_prices` over the valid results, with the
list of already-added keys.  Each result's price goes through `float()`
first — `none` models the `ValueError` that aborts the whole call when a
price string does not parse.  Membership in the seen set uses Python
equality (`keyEq`).  A kept result is paired with its parsed price. -/
def dedupResults : List ProductResult → List (String × PyFloat) →
    Option (List (ProductResult × PyFloat))
  | [], _ => some []
  | r :: rs, seen =>
    match parseFloat r.price with
    | none => none
    | some q =>
      let key := (dedupName r.productName, q)
      if seen.any (fun k => keyEq k key) then dedupResults rs seen
      else
        match dedupResults rs (key :: seen) with
        | none => none
        | some us => some ((r, q) :: us)

/-- Comparator of the price sort.  Python `list.sort` compares keys with
IEEE `<` only; a stable sort places each element before the first element
of the sorted remainder that is not below it, which is
`¬ (b.price < a.price)`.  On NaN-free keys this is a total preorder and
the model is exact (all stable sorts agree with Timsort); on NaN-bearing
keys Timsort's binary insertion may arrange elements differently, so
order-sensitive statements are made only for NaN-free runs, and the one
NaN-bearing concrete input in this development is checked against the
observed CPython output. -/
def priceOrder (a b : ProductResult × PyFloat) : Prop := pyLt b.2 a.2 = false

instance : DecidableRel priceOrder := fun a b => inferInstanceAs (Decidable (pyLt b.2 a.2 = false))

/-- The valid per-candidate results, in candidate order (the order
`asyncio.gather` returns and the filtering comprehension preserves). -/
def validResults (country query : String) (search_urls : List Candidate) : List ProductResult :=
  (search_urls.enum.map (fun p => scrape_site p.2 query country p.1)).filterMap id

/-- Model of `fetch_prices`: scrape all candidates, keep the non-`None`
results in order, deduplicate by (normalised name, parsed price) keeping
the first occurrence, sort ascending by parsed price with a stable sort,
and return at most 25 results.  Python `list.sort` is stable, so the sort
is modelled by the stable `List.insertionSort`.  `none` models the
`ValueError` escaping the call when `float()` rejects some accepted price
string. -/
def fetch_prices (country query : String) (search_urls : List Candidate) :
    Option (List ProductResult) :=
  match dedupResults (validResults country query search_urls) [] with
  | none => none
  | some unique_results =>
    some (((unique_results.insertionSort priceOrder).map Prod.fst).take 25)

/-! ## General lemmas about the pipeline -/

/-- The user-agent rotation index does not influence the result of a
scrape (it only varies outbound headers, which the page oracle of the
model ignores). -/
theorem scrape_site_index (c : Candidate) (query country : String) (i j : Nat) :
    scrape_site c query country i = scrape_site c query country j := rfl

/-- The valid results are the `filterMap` of the scrape over the
candidates, in order. -/
theorem validResults_eq (country query : String) (cands : List Candidate) :
    validResults country query cands
      = cands.filterMap (fun c => scrape_site c query country 0) := by
  unfold validResults
  rw [show (fun p : Nat × Candidate => scrape_site p.2 query country p.1)
        = (fun c => scrape_site c query country 0) ∘ Prod.snd from rfl]
  rw [← List.map_map, List.enum_map_snd, List.filterMap_map]
  simp

/-- Dropping list entries the function maps to `none` does not change a
`filterMap`. -/
theorem filterMap_filter_of_none {α β : Type} (g : α → Option β) (p : α → Bool)
    (l : List α) (h : ∀ c ∈ l, p c = false → g c = none) :
    (l.filter p).filterMap g = l.filterMap g := by
  induction l with
  | nil => rfl
  | cons c cs ih =>
    have ih2 := ih (fun x hx => h x (List.mem_cons_of_mem _ hx))
    by_cases hp : p c = true
    · simp [List.filter_cons, hp, List.filterMap_cons, ih2]
    · have hc : g c = none := h c (List.mem_cons_self _ _) (by simpa using hp)
      simp [List.filter_cons, hp, List.filterMap_cons, hc, ih2]

/-- Unfolding of a successful `fetch_prices` call. -/
theorem fetch_prices_eq_some {country query : String} {cands : List Candidate}
    {l : List ProductResult} (h : fetch_prices country query cands = some l) :
    ∃ u, dedupResults (validResults country query cands) [] = some u ∧
      l = ((u.insertionSort priceOrder).map Prod.fst).take 25 := by
  unfold fetch_prices at h
  cases hd : dedupResults (validResults country query cands) [] with
  | none => rw [hd] at h; exact absurd h (by simp)
  | some u => rw [hd] at h; exact ⟨u, rfl, by injection h with h2; exact h2.symm⟩

/-- Every pair a successful deduplication keeps consists of a kept valid
result together with its parsed price. -/
theorem dedupResults_mem {v : List ProductResult} {seen : List (String × PyFloat)}
    {u : List (ProductResult × PyFloat)} (h : dedupResults v seen = some u) :
    ∀ p ∈ u, parseFloat p.1.price = some p.2 ∧ p.1 ∈ v := by
  induction v generalizing seen u with
  | nil =>
    intro p hp
    unfold dedupResults at h
    injection h with h2
    subst h2
    simp at hp
  | cons r rs ih =>
    intro p hp
    unfold dedupResults at h
    cases hq : parseFloat r.price with
    | none => rw [hq] at h; exact absurd h (by simp)
    | some q =>
      rw [hq] at h
      simp only at h
      by_cases hseen : seen.any (fun k => keyEq k (dedupName r.productName, q)) = true
      · rw [if_pos hseen] at h
        have := ih h p hp
        exact ⟨this.1, List.mem_cons_of_mem _ this.2⟩
      · rw [if_neg hseen] at h
        cases hrest : dedupResults rs ((dedupName r.productName, q) :: seen) with
        | none => rw [hrest] at h; exact absurd h (by simp)
        | some us =>
          rw [hrest] at h
          injection h with h2
          subst h2
          rcases List.mem_cons.mp hp with hp1 | hp2
          · subst hp1; exact ⟨hq, List.mem_cons_self _ _⟩
          · have := ih hrest p hp2
            exact ⟨this.1, List.mem_cons_of_mem _ this.2⟩

/-- The kept results of a successful deduplication form a sublist of the
valid results (first occurrences kept, in order). -/
theorem dedupResults_sublist {v : List ProductResult} {seen : List (String × PyFloat)}
    {u : List (ProductResult × PyFloat)} (h : dedupResults v seen = some u) :
    (u.map Prod.fst).Sublist v := by
  induction v generalizing seen u with
  | nil =>
    unfold dedupResults at h
    injection h with h2
    subst h2
    simp
  | cons r rs ih =>
    unfold dedupResults at h
    cases hq : parseFloat r.price with
    | none => rw [hq] at h; exact absurd h (by simp)
    | some q =>
      rw [hq] at h
      simp only at h
      by_cases hseen : seen.any (fun k => keyEq k (dedupName r.productName, q)) = true
      · rw [if_pos hseen] at h
        exact (ih h).trans (List.sublist_cons_self _ _)
      · rw [if_neg hseen] at h
        cases hrest : dedupResults rs ((dedupName r.productName, q) :: seen) with
        | none => rw [hrest] at h; exact absurd h (by simp)
        | some us =>
          rw [hrest] at h
          injection h with h2
          subst h2
          simpa using List.Sublist.cons₂ r (ih hrest)

/-- Deduplication key of a result, as the spec describes it: the product
name lower-cased with all whitespace removed and truncated to 30
characters, paired with the parsed price (`num 0` as a placeholder when
the price does not parse, which cannot happen for results a successful
call returns). -/
def dedupKey (r : ProductResult) : String × PyFloat :=
  (dedupName r.productName, (parseFloat r.price).getD (.num 0))

/-- No pair a successful deduplication keeps carries a key Python-equal
to one in the already-seen set, and the kept keys are pairwise distinct
in the Python sense: no two of them compare equal under `==`. -/
theorem dedupResults_pairwise {v : List ProductResult} {seen : List (String × PyFloat)}
    {u : List (ProductResult × PyFloat)} (h : dedupResults v seen = some u) :
    (∀ p ∈ u, ∀ k ∈ seen, keyEq k (dedupName p.1.productName, p.2) = false)
      ∧ u.Pairwise (fun p p2 =>
          keyEq (dedupName p.1.productName, p.2) (dedupName p2.1.productName, p2.2) = false) := by
  induction v generalizing seen u with
  | nil =>
    unfold dedupResults at h
    injection h with h2
    subst h2
    exact ⟨by simp, by simp⟩
  | cons r rs ih =>
    unfold dedupResults at h
    cases hq : parseFloat r.price with
    | none => rw [hq] at h; exact absurd h (by simp)
    | some q =>
      rw [hq] at h
      simp only at h
      by_cases hseen : seen.any (fun k => keyEq k (dedupName r.productName, q)) = true
      · rw [if_pos hseen] at h
        exact ih h
      · rw [if_neg hseen] at h
        cases hrest : dedupResults rs ((dedupName r.productName, q) :: seen) with
        | none => rw [hrest] at h; exact absurd h (by simp)
        | some us =>
          rw [hrest] at h
          injection h with h2
          subst h2
          have hrec := ih hrest
          have hseen2 : ∀ k ∈ seen, keyEq k (dedupName r.productName, q) = false := by
            intro k hk
            by_contra hc
            exact hseen (List.any_eq_true.mpr ⟨k, hk, by simpa using hc⟩)
          constructor
          · intro p hp k hk
            rcases List.mem_cons.mp hp with hp1 | hp2
            · subst hp1; exact hseen2 k hk
            · exact hrec.1 p hp2 k (List.mem_cons_of_mem _ hk)
          · refine List.pairwise_cons.mpr ⟨?_, hrec.2⟩
            intro p hp
            exact hrec.1 p hp _ (List.mem_cons_self _ _)

/-- A valid result whose key is Python-unequal to the key of every
earlier valid result is kept by the deduplication pass (first-seen wins),
provided its key is Python-unequal to every already-seen one. -/
theorem dedupResults_first {v : List ProductResult} {seen : List (String × PyFloat)}
    {u : List (ProductResult × PyFloat)} (h : dedupResults v seen = some u) :
    ∀ pre r post, v = pre ++ r :: post →
      (∀ x ∈ pre, keyEq (dedupKey x) (dedupKey r) = false) →
      (∀ k ∈ seen, keyEq k (dedupKey r) = false) → r ∈ u.map Prod.fst := by
  induction v generalizing seen u with
  | nil =>
    intro pre r post hsplit
    exact absurd hsplit (by simp)
  | cons x xs ih =>
    intro pre r post hsplit hpre hns
    unfold dedupResults at h
    cases hq : parseFloat x.price with
    | none => rw [hq] at h; exact absurd h (by simp)
    | some q =>
      rw [hq] at h
      simp only at h
      have hkeyx : (dedupName x.productName, q) = dedupKey x := by
        simp [dedupKey, hq]
      cases pre with
      | nil =>
        simp only [List.nil_append] at hsplit
        injection hsplit with hx hxs
        subst hx
        subst hxs
        rw [hkeyx] at h
        have hnotin : ¬ (seen.any (fun k => keyEq k (dedupKey x)) = true) := by
          intro hc
          obtain ⟨k, hk, hke⟩ := List.any_eq_true.mp hc
          exact absurd (by simpa using hke) (by simp [hns k hk])
        rw [if_neg hnotin] at h
        cases hrest : dedupResults xs (dedupKey x :: seen) with
        | none => rw [hrest] at h; exact absurd h (by simp)
        | some us =>
          rw [hrest] at h
          injection h with h2
          subst h2
          simp
      | cons y pre2 =>
        simp only [List.cons_append] at hsplit
        injection hsplit with hx hxs
        subst hx
        have hxr : keyEq (dedupKey x) (dedupKey r) = false := hpre x (by simp)
        have hpre2 : ∀ z ∈ pre2, keyEq (dedupKey z) (dedupKey r) = false :=
          fun z hz => hpre z (by simp [hz])
        by_cases hseen : seen.any (fun k => keyEq k (dedupName x.productName, q)) = true
        · rw [if_pos hseen] at h
          exact ih h pre2 r post hxs hpre2 hns
        · rw [if_neg hseen] at h
          cases hrest : dedupResults xs ((dedupName x.productName, q) :: seen) with
          | none => rw [hrest] at h; exact absurd h (by simp)
          | some us =>
            rw [hrest] at h
            injection h with h2
            subst h2
            have hm : r ∈ us.map Prod.fst := by
              refine ih hrest pre2 r post hxs hpre2 ?_
              intro k hk
              rcases List.mem_cons.mp hk with hk1 | hk2
              · rw [hk1, hkeyx]
                exact hxr
              · exact hns k hk2
            simp [hm]

/-- Backfill helper: with a falsy value, `x or default` is the default. -/
theorem pyOr_of_falsy {x : Option String} {d : String} (h : pyTruthy x = false) :
    pyOr x d = d := by
  cases x with
  | none => rfl
  | some s =>
    simp only [pyTruthy, ne_eq, decide_not] at h
    simp only [pyOr, ne_eq, ite_eq_right_iff]
    intro hs
    simpa [hs] using h

/-- Backfill helper: `x or default` is never empty when the default is
non-empty. -/
theorem pyOr_ne_empty {x : Option String} {d : String} (h : d ≠ "") :
    pyOr x d ≠ "" := by
  cases x with
  | none => exact h
  | some s =>
    simp only [pyOr]
    by_cases hs : s = ""
    · simpa [hs] using h
    · simpa [hs] using hs

/-- The country→currency lookup never produces an empty code. -/
theorem get_currency_ne_empty (country : String) : get_currency country ≠ "" := by
  unfold get_currency
  cases hf : CURRENCY_MAP.find? (fun p => p.1 = upperStr country) with
  | none => simp
  | some p =>
    have hmem : p ∈ CURRENCY_MAP := List.mem_of_find?_eq_some hf
    have : ∀ x ∈ CURRENCY_MAP, x.2 ≠ "" := by decide
    simpa using this p hmem

/-- Characterisation of a successful scrape: the fetch returned status 200,
the cascade produced a record, the similarity met the 0.3 threshold, and
the result is the assembled `ProductResult`. -/
theorem scrape_site_some_iff {c : Candidate} {query country : String} {i : Nat}
    {r : ProductResult} :
    scrape_site c query country i = some r ↔
      ∃ soup rec, c.outcome = .http 200 soup ∧
        run_extraction soup c.url query (lowerStr (netloc c.url)) = some rec ∧
        mkRat 3 10 ≤ get_product_similarity query rec.productName ∧
        r = mkProductResult rec country c.name := by
  cases ho : c.outcome with
  | timeout =>
    simp only [scrape_site, ho]
    constructor
    · intro hc; exact absurd hc (by simp)
    · rintro ⟨soup, rec, hcon, -⟩
      exact absurd hcon (by simp)
  | exn =>
    simp only [scrape_site, ho]
    constructor
    · intro hc; exact absurd hc (by simp)
    · rintro ⟨soup, rec, hcon, -⟩
      exact absurd hcon (by simp)
  | http st soup =>
    simp only [scrape_site, ho]
    by_cases hst : st = 200
    · subst hst
      simp only [ne_eq, not_true_eq_false, if_false, reduceIte]
      cases hre : run_extraction soup c.url query (lowerStr (netloc c.url)) with
      | none =>
        constructor
        · intro hc; exact absurd hc (by simp)
        · rintro ⟨soup2, rec, hcon, hre2, -⟩
          injection hcon with h1 h2
          subst h2
          exact absurd hre2 (by simp [hre])
      | some rec =>
        by_cases hsim : mkRat 3 10 ≤ get_product_similarity query rec.productName
        · simp only [if_pos hsim]
          constructor
          · intro hc
            injection hc with h1
            exact ⟨soup, rec, rfl, hre, hsim, h1.symm⟩
          · rintro ⟨soup2, rec2, hcon, hre2, hsim2, hr⟩
            injection hcon with h1 h2
            subst h2
            rw [hre] at hre2
            injection hre2 with h3
            subst h3
            rw [hr]
        · simp only [if_neg hsim]
          constructor
          · intro hc; exact absurd hc (by simp)
          · rintro ⟨soup2, rec2, hcon, hre2, hsim2, hr⟩
            injection hcon with h1 h2
            subst h2
            rw [hre] at hre2
            injection hre2 with h3
            subst h3
            exact absurd hsim2 hsim
    · rw [if_pos (by simpa using hst)]
      constructor
      · intro hc; exact absurd hc (by simp)
      · rintro ⟨soup2, rec, hcon, -⟩
        injection hcon with h1 h2
        exact absurd h1 hst

/-! ## Claims -/

/-- C5: for every candidate list, regardless of how many candidates it
contains and how many of them succeed, the list returned by `fetch_prices`
has length at most 25. -/
theorem c5_result_capped (country query : String) (cands : List Candidate)
    (l : List ProductResult) (h : fetch_prices country query cands = some l) :
    l.length ≤ 25 := by
  obtain ⟨u, -, hl⟩ := fetch_prices_eq_some h
  subst hl
  simpa using Nat.le_of_lt_succ (Nat.lt_succ_of_le (List.length_take_le _ _))

/-- Fixture for the C5 witness: a JSON-LD product page. -/
def c5script : JsonLdScriptData :=
  { isProduct := true
    name := some "Pixel 9 Phone"
    offersPrice := some (JVal.jstr "799") }

/-- Fixture for the C5 witness: the candidate serving `c5script`. -/
def c5cand : Candidate :=
  { name := "Store"
    url := "https://store.example/p"
    outcome := .http 200 { jsonLdScripts := [c5script] } }

/-- Fixture for the C5 witness: the expected result. -/
def c5res : ProductResult :=
  { link := "https://store.example/p"
    price := "799"
    currency := "USD"
    productName := "Pixel 9 Phone"
    source := some "Store"
    availability := some "" }

/-- Witness for C5 at a concrete input: one JSON-LD candidate produces a
one-element result list, and the theorem bounds its length by 25. -/
theorem c5_result_capped_witness :
    fetch_prices "US" "pixel 9" [c5cand] = some [c5res] ∧ ([c5res] : List ProductResult).length ≤ 25 :=
  ⟨by decide, c5_result_capped "US" "pixel 9" [c5cand] [c5res] (by decide)⟩

/-- Failure classes of the claim taxonomy for one candidate: a timeout, a
transport/extraction exception, or an HTTP response outside the 2xx
range.  (The code is even stricter and also drops 2xx statuses other than
200, which only shrinks a candidate's contribution further.) -/
def candidateFailed (o : PageOutcome) : Bool :=
  match o with
  | .timeout => true
  | .exn => true
  | .http st _ => !(200 ≤ st && st ≤ 299)

/-- C1: every per-candidate failure (non-2xx status, timeout, or any
transport/extraction exception) contributes zero results, the aggregate
result equals the one computed from the non-failing candidates alone
(deduplicated, sorted, truncated), and removing the failing candidates
cannot change whether the aggregate call raises. -/
theorem c1_failures_absorbed (country query : String) (cands : List Candidate) :
    (∀ c ∈ cands, candidateFailed c.outcome = true →
      ∀ i, scrape_site c query country i = none)
    ∧ fetch_prices country query cands
        = fetch_prices country query (cands.filter (fun c => !candidateFailed c.outcome))
    ∧ ((fetch_prices country query cands).isSome ↔
        (fetch_prices country query
          (cands.filter (fun c => !candidateFailed c.outcome))).isSome) := by
  have hnone : ∀ c : Candidate, candidateFailed c.outcome = true →
      ∀ i : Nat, scrape_site c query country i = none := by
    intro c hc i
    unfold scrape_site
    cases ho : c.outcome with
    | timeout => rfl
    | exn => rfl
    | http st soup =>
      have h200 : st ≠ 200 := by
        intro hst
        subst hst
        simp [candidateFailed, ho] at hc
      simp [h200]
  have hvalid : validResults country query
        (cands.filter (fun c => !candidateFailed c.outcome))
      = validResults country query cands := by
    rw [validResults_eq, validResults_eq]
    exact filterMap_filter_of_none _ _ _
      (fun c _ hp => hnone c (by simpa using hp) 0)
  have heq : fetch_prices country query cands
      = fetch_prices country query (cands.filter (fun c => !candidateFailed c.outcome)) := by
    unfold fetch_prices
    rw [hvalid]
  exact ⟨fun c _ hc i => hnone c hc i, heq, by rw [heq]⟩

/-- Fixture for the C1 witness: a candidate whose fetch times out. -/
def c1slow : Candidate :=
  { name := "Slow"
    url := "https://slow.example/x"
    outcome := .timeout }

/-- Fixture for the C1 witness: a candidate answering 503. -/
def c1down : Candidate :=
  { name := "Down"
    url := "https://down.example/x"
    outcome := .http 503 {} }

/-- Fixture for the C1 witness: a JSON-LD product page. -/
def c1script : JsonLdScriptData :=
  { isProduct := true
    name := some "Gadget Max 12"
    offersPrice := some (JVal.jstr "49.99") }

/-- Fixture for the C1 witness: a healthy JSON-LD candidate. -/
def c1ok : Candidate :=
  { name := "Ok"
    url := "https://ok.example/p"
    outcome := .http 200 { jsonLdScripts := [c1script] } }

/-- Witness for C1 at a concrete input: with one timeout, one 503 and one
healthy candidate, the failing candidates scrape to nothing and the
aggregate equals the aggregate of the healthy candidate alone. -/
theorem c1_failures_absorbed_witness :
    scrape_site c1slow "gadget max 12" "US" 0 = none
    ∧ scrape_site c1down "gadget max 12" "US" 1 = none
    ∧ fetch_prices "US" "gadget max 12" [c1slow, c1ok, c1down]
        = fetch_prices "US" "gadget max 12"
            ([c1slow, c1ok, c1down].filter (fun c => !candidateFailed c.outcome)) :=
  ⟨(c1_failures_absorbed "US" "gadget max 12" [c1slow, c1ok, c1down]).1 c1slow
      (by simp) (by decide) 0,
   (c1_failures_absorbed "US" "gadget max 12" [c1slow, c1ok, c1down]).1 c1down
      (by simp) (by decide) 1,
   (c1_failures_absorbed "US" "gadget max 12" [c1slow, c1ok, c1down]).2.1⟩

/-- Arithmetic shape of the scorer value: the single fraction used by the
executable definition equals the textbook sum
`matchCount / L + important · 0.3`. -/
theorem similarity_formula (m k L : Nat) (hL : L ≠ 0) :
    (mkRat (10 * m + 3 * k * L) (10 * L) : ℚ)
      = (m : ℚ) / (L : ℚ) + (k : ℚ) * (3 / 10) := by
  rw [Rat.mkRat_eq_div]
  have hL0 : (L : ℚ) ≠ 0 := by exact_mod_cast hL
  push_cast
  field_simp
  ring

/-- C6: `get_product_similarity` coincides with the reference definition of
the spec (`specScore`) on every input; the spec's concrete example scores
1.0 by substring containment; and every score lies in the interval
[0, 1]. -/
theorem c6_scorer_matches_spec :
    (∀ q p, get_product_similarity q p = specScore q p)
    ∧ get_product_similarity "iPhone 16 Pro" "Apple iPhone 16 Pro 128GB Black" = 1
    ∧ (∀ q p, 0 ≤ get_product_similarity q p ∧ get_product_similarity q p ≤ 1) := by
  refine ⟨?_, by decide, ?_⟩
  · intro q p
    by_cases hp : p = ""
    · simp [get_product_similarity, specScore, hp]
    · by_cases hsub : strContains (lowerStr p) (lowerStr q) = true
      · simp [get_product_similarity, specScore, hp, hsub]
      · simp only [get_product_similarity, specScore, if_neg hp, hsub, Bool.false_eq_true,
          if_false, reduceIte]
        by_cases hqt : ((pySplit (lowerStr q)).eraseDups).isEmpty
        · have hnil : (pySplit (lowerStr q)).eraseDups = [] := List.isEmpty_iff.mp hqt
          simp [hqt, hnil]
        · have hL : ((pySplit (lowerStr q)).eraseDups).length ≠ 0 := by
            intro h0
            exact absurd (List.isEmpty_iff.mp (List.isEmpty_iff_length_eq_zero.mpr h0)) (by
              intro hn
              exact hqt (by simp [hn]))
          simp only [hqt, Bool.false_eq_true, if_false, reduceIte]
          rw [List.filter_filter]
          rw [similarity_formula _ _ _ hL]
          have hcomm : (fun t => strContains (lowerStr p) t && t.data.any Char.isDigit)
              = (fun t : String => t.data.any Char.isDigit && strContains (lowerStr p) t) := by
            funext t
            exact Bool.and_comm _ _
          rw [hcomm]
  · intro q p
    unfold get_product_similarity
    by_cases hp : p = ""
    · simp [hp]
    · simp only [if_neg hp]
      by_cases hsub : strContains (lowerStr p) (lowerStr q) = true
      · simp [hsub]
      · simp only [hsub, Bool.false_eq_true, if_false, reduceIte]
        by_cases hqt : ((pySplit (lowerStr q)).eraseDups).isEmpty
        · simp [hqt]
        · simp only [hqt, Bool.false_eq_true, if_false, reduceIte]
          have hnn : (0 : ℚ) ≤ mkRat (10 * ((pySplit (lowerStr q)).eraseDups.filter
              (fun t => (pySplit (lowerStr p)).eraseDups.contains t)).length
              + 3 * (((pySplit (lowerStr q)).eraseDups.filter
                  (fun t => t.data.any Char.isDigit)).filter
                  (fun t => strContains (lowerStr p) t)).length
                * ((pySplit (lowerStr q)).eraseDups).length)
              (10 * ((pySplit (lowerStr q)).eraseDups).length) := by
            rw [Rat.mkRat_eq_div]
            apply div_nonneg
            · positivity
            · positivity
          exact ⟨le_min hnn (by norm_num), min_le_right _ _⟩

/-- C7, counterexample: on the text `999 GBP` the lexer recognises the
price through its GBP-aware pattern, the ISO currency code `GBP` occurs in
the text, and the returned currency is nevertheless the default `USD` —
so `USD` is not reserved for texts in which no currency symbol or code is
found. -/
theorem c7_lexer_counterexample :
    extract_price_from_text "999 GBP" = some ("999", "USD")
    ∧ strContains "999 GBP" "GBP" = true := by decide

/-- C7, amended: the two concrete mappings hold; the lexer returns `none`
exactly when none of its six ordered patterns matches; and the currency of
a successful extraction is the first hit of the fixed symbol table
(`$ ₹ £ € ¥ C$ A$ 元 USD INR`) in the text, with `USD` as the default only
when no table entry occurs — ISO codes outside that table (such as `GBP`)
do not prevent the default. -/
theorem c7_lexer_amended :
    extract_price_from_text "₹45,999" = some ("45999", "INR")
    ∧ extract_price_from_text "$12.50" = some ("12.50", "USD")
    ∧ extract_price_from_text "no price here" = none
    ∧ (∀ t : String, extract_price_from_text t = none ↔
        ∀ r ∈ patternSearches t.data, r = none)
    ∧ (∀ t p c, extract_price_from_text t = some (p, c) →
        c = (tableLookup t).getD "USD") := by
  refine ⟨by decide, by decide, by decide, ?_, ?_⟩
  · intro t
    by_cases ht : t = ""
    · subst ht
      simp only [extract_price_from_text, reduceIte]
      constructor
      · intro _
        decide
      · intro _
        trivial
    · simp only [extract_price_from_text, if_neg ht]
      cases hs : (patternSearches t.data).findSome? id with
      | none =>
        simpa using (List.findSome?_eq_none).mp hs
      | some g =>
        simp only
        constructor
        · intro hc
          exact absurd hc (by simp)
        · intro hall
          have h2 : (patternSearches t.data).findSome? id = none :=
            (List.findSome?_eq_none).mpr (fun x hx => hall x hx)
          rw [hs] at h2
          exact absurd h2 (by simp)
  · intro t p c h
    by_cases ht : t = ""
    · subst ht
      exact absurd h (by simp [extract_price_from_text])
    · simp only [extract_price_from_text, if_neg ht] at h
      cases hs : (patternSearches t.data).findSome? id with
      | none => rw [hs] at h; exact absurd h (by simp)
      | some g =>
        rw [hs] at h
        simp only at h
        injection h with h2
        have := congrArg Prod.snd h2
        simpa using this.symm

/-- Witness for the amended C7: applying the currency rule to `$12.50`,
whose first symbol-table hit is the dollar sign. -/
theorem c7_lexer_amended_witness :
    extract_price_from_text "$12.50" = some ("12.50", "USD")
    ∧ "USD" = (tableLookup "$12.50").getD "USD" :=
  ⟨by decide, c7_lexer_amended.2.2.2.2 "$12.50" "12.50" "USD" (by decide)⟩

/-- C8: the extraction cascade runs JSON-LD, then meta tags, then the
Amazon strategy (only on domains containing `amazon`), then generic HTML
patterns, stopping at the first record; and end-to-end, a 200 page with no
structured-data block but valid meta-tag name and price yields exactly the
`ProductResult` assembled from the meta-tag record (when the similarity
gate passes). -/
theorem c8_cascade_order :
    (∀ soup url query domain r, extract_from_json_ld soup url = some r →
        run_extraction soup url query domain = some r)
    ∧ (∀ soup url query domain r, extract_from_json_ld soup url = none →
        extract_from_meta_tags soup url = some r →
        run_extraction soup url query domain = some r)
    ∧ (∀ soup url query domain r, extract_from_json_ld soup url = none →
        extract_from_meta_tags soup url = none →
        strContains domain "amazon" = true →
        extract_amazon_data soup url = some r →
        run_extraction soup url query domain = some r)
    ∧ (∀ soup url query domain, extract_from_json_ld soup url = none →
        extract_from_meta_tags soup url = none →
        strContains domain "amazon" = false →
        run_extraction soup url query domain = extract_from_html_patterns soup url query)
    ∧ (∀ soup url query domain, extract_from_json_ld soup url = none →
        extract_from_meta_tags soup url = none →
        extract_amazon_data soup url = none →
        run_extraction soup url query domain = extract_from_html_patterns soup url query)
    ∧ (∀ (c : Candidate) (query country : String) (i : Nat) soup rec,
        c.outcome = .http 200 soup →
        soup.jsonLdScripts = [] →
        extract_from_meta_tags soup c.url = some rec →
        mkRat 3 10 ≤ get_product_similarity query rec.productName →
        scrape_site c query country i = some (mkProductResult rec country c.name)) := by
  refine ⟨?_, ?_, ?_, ?_, ?_, ?_⟩
  · intro soup url query domain r h1
    simp [run_extraction, h1]
  · intro soup url query domain r h1 h2
    simp [run_extraction, h1, h2]
  · intro soup url query domain r h1 h2 h3 h4
    simp [run_extraction, h1, h2, h3, h4]
  · intro soup url query domain h1 h2 h3
    simp [run_extraction, h1, h2, h3]
  · intro soup url query domain h1 h2 h3
    by_cases ha : strContains domain "amazon" = true
    · simp [run_extraction, h1, h2, ha, h3]
    · simp only [Bool.not_eq_true] at ha
      simp [run_extraction, h1, h2, ha]
  · intro c query country i soup rec hout hscripts hmeta hsim
    have hjson : extract_from_json_ld soup c.url = none := by
      simp [extract_from_json_ld, hscripts]
    have hrun : run_extraction soup c.url query (lowerStr (netloc c.url)) = some rec := by
      simp [run_extraction, hjson, hmeta]
    exact scrape_site_some_iff.mpr ⟨soup, rec, hout, hrun, hsim, rfl⟩

/-- Fixture for the C8 witness: a page with no structured data but valid
Open Graph / product meta tags. -/
def c8soup : Soup :=
  { ogTitle := some "AcmePhone 12 Case"
    priceAmount := some "19.99"
    priceCurrencyMeta := some "EUR" }

/-- Fixture for the C8 witness: the candidate serving `c8soup`. -/
def c8cand : Candidate :=
  { name := "MetaShop"
    url := "https://meta.example/p"
    outcome := .http 200 c8soup }

/-- Fixture for the C8 witness: the record the meta-tag strategy yields. -/
def c8rec : ExtractedRecord :=
  { link := "https://meta.example/p"
    price := "19.99"
    currency := some "EUR"
    productName := "AcmePhone 12 Case" }

/-- Witness for C8 at a concrete input: the meta-tag strategy produces the
record, and the scrape of the page without structured data returns exactly
the result assembled from that record. -/
theorem c8_cascade_order_witness :
    extract_from_meta_tags c8soup "https://meta.example/p" = some c8rec
    ∧ scrape_site c8cand "acmephone 12 case" "US" 0
        = some (mkProductResult c8rec "US" "MetaShop") :=
  ⟨by decide,
   c8_cascade_order.2.2.2.2.2 c8cand "acmephone 12 case" "US" 0 c8soup c8rec
     rfl rfl (by decide) (by decide)⟩

/-- C9: a candidate contributes a result iff its fetch returned status
200, the cascade produced a record, and the similarity score meets the 0.3
threshold; and when the extracted record carries no (truthy) currency, the
result's currency is the country default from the currency table. -/
theorem c9_acceptance_rule :
    (∀ (c : Candidate) (query country : String) (i : Nat),
      (scrape_site c query country i).isSome = true ↔
        ∃ soup rec, c.outcome = .http 200 soup ∧
          run_extraction soup c.url query (lowerStr (netloc c.url)) = some rec ∧
          mkRat 3 10 ≤ get_product_similarity query rec.productName)
    ∧ (∀ (c : Candidate) (query country : String) (i : Nat) soup rec r,
        c.outcome = .http 200 soup →
        run_extraction soup c.url query (lowerStr (netloc c.url)) = some rec →
        scrape_site c query country i = some r →
        pyTruthy rec.currency = false →
        r.currency = get_currency country) := by
  constructor
  · intro c query country i
    rw [Option.isSome_iff_exists]
    constructor
    · rintro ⟨r, hr⟩
      obtain ⟨soup, rec, h1, h2, h3, -⟩ := scrape_site_some_iff.mp hr
      exact ⟨soup, rec, h1, h2, h3⟩
    · rintro ⟨soup, rec, h1, h2, h3⟩
      exact ⟨mkProductResult rec country c.name,
        scrape_site_some_iff.mpr ⟨soup, rec, h1, h2, h3, rfl⟩⟩
  · intro c query country i soup rec r hout hrun hscrape hfalsy
    obtain ⟨soup2, rec2, h1, h2, h3, h4⟩ := scrape_site_some_iff.mp hscrape
    rw [hout] at h1
    injection h1 with h5 h6
    subst h6
    rw [hrun] at h2
    injection h2 with h7
    subst h7
    subst h4
    simpa [mkProductResult] using pyOr_of_falsy hfalsy

/-- Fixture for the C9 witness: a JSON-LD product whose `priceCurrency` is
JSON `null`, so the extracted record has no currency. -/
def c9script : JsonLdScriptData :=
  { isProduct := true
    name := some "Null Cur Widget"
    offersPrice := some (JVal.jint 450)
    offersPriceCurrency := some none }

/-- Fixture for the C9 witness: the candidate serving `c9script`. -/
def c9cand : Candidate :=
  { name := "Z"
    url := "https://z.example/p"
    outcome := .http 200 { jsonLdScripts := [c9script] } }

/-- Fixture for the C9 witness: the extracted record, with no currency. -/
def c9rec : ExtractedRecord :=
  { link := "https://z.example/p"
    price := "450"
    currency := none
    productName := "Null Cur Widget"
    availability := some "" }

/-- Witness for C9 at a concrete input: the record extracted from the
null-currency page is backfilled with India's default currency. -/
theorem c9_acceptance_rule_witness :
    scrape_site c9cand "null cur widget" "IN" 0 = some (mkProductResult c9rec "IN" "Z")
    ∧ (mkProductResult c9rec "IN" "Z").currency = get_currency "IN"
    ∧ get_currency "IN" = "INR" :=
  ⟨by decide,
   c9_acceptance_rule.2 c9cand "null cur widget" "IN" 0
     { jsonLdScripts := [c9script] } c9rec (mkProductResult c9rec "IN" "Z")
     rfl (by decide) (by decide) rfl,
   by decide⟩

/-- Fixture for the C10 counterexample: a JSON-LD Product with a price but
no `name` key, which extracts to a record whose product name is empty. -/
def c10script : JsonLdScriptData :=
  { isProduct := true
    offersPrice := some (JVal.jstr "5") }

/-- Fixture for the C10 counterexample: the candidate serving
`c10script`. -/
def c10cand : Candidate :=
  { name := "Y"
    url := "https://y.example/p"
    outcome := .http 200 { jsonLdScripts := [c10script] } }

/-- Fixture for the C10 counterexample: the extracted record, with an
empty product name. -/
def c10rec : ExtractedRecord :=
  { link := "https://y.example/p"
    price := "5"
    currency := some "USD"
    productName := ""
    availability := some "" }

/-- C10, counterexample: with the empty query, the extraction cascade can
produce a record (a JSON-LD Product without a name), yet that record
scores 0.0 — below the 0.3 threshold — and the candidate contributes
nothing; so not every extracted record passes the threshold under an
empty query. -/
theorem c10_empty_query_counterexample :
    run_extraction { jsonLdScripts := [c10script] } "https://y.example/p" "" "y.example"
      = some c10rec
    ∧ c10rec.productName = ""
    ∧ get_product_similarity "" c10rec.productName = 0
    ∧ ¬ (mkRat 3 10 ≤ get_product_similarity "" c10rec.productName)
    ∧ scrape_site c10cand "" "US" 0 = none := by decide

/-- C10, amended: with the empty query, every non-empty product name
scores 1.0 because the empty string is a substring of every string, and
consequently every extracted record whose product name is non-empty passes
the 0.3 acceptance threshold (a record extracted without a name scores 0.0
and is rejected). -/
theorem c10_empty_query_amended :
    (∀ p, p ≠ "" → get_product_similarity "" p = 1)
    ∧ (∀ (c : Candidate) (country : String) (i : Nat) soup rec,
        c.outcome = .http 200 soup →
        run_extraction soup c.url "" (lowerStr (netloc c.url)) = some rec →
        rec.productName ≠ "" →
        mkRat 3 10 ≤ get_product_similarity "" rec.productName
        ∧ (scrape_site c "" country i).isSome = true) := by
  have hone : ∀ p : String, p ≠ "" → get_product_similarity "" p = 1 := by
    intro p hp
    have hsub : strContains (lowerStr p) (lowerStr "") = true := by
      show containsSub [] (lowerStr p).data = true
      unfold containsSub
      simp
    simp [get_product_similarity, hp, hsub]
  refine ⟨hone, ?_⟩
  intro c country i soup rec hout hrun hname
  have hsim : mkRat 3 10 ≤ get_product_similarity "" rec.productName := by
    rw [hone rec.productName hname]
    decide
  refine ⟨hsim, ?_⟩
  rw [Option.isSome_iff_exists]
  exact ⟨mkProductResult rec country c.name,
    scrape_site_some_iff.mpr ⟨soup, rec, hout, hrun, hsim, rfl⟩⟩

/-- Fixture for the C10 witness: a JSON-LD product page with a name. -/
def c10okScript : JsonLdScriptData :=
  { isProduct := true
    name := some "Widget Deluxe"
    offersPrice := some (JVal.jstr "7") }

/-- Fixture for the C10 witness: the candidate serving `c10okScript`. -/
def c10okCand : Candidate :=
  { name := "W"
    url := "https://w.example/p"
    outcome := .http 200 { jsonLdScripts := [c10okScript] } }

/-- Witness for the amended C10 at concrete inputs: a non-empty name
scores 1.0 under the empty query, and a named record extracted under the
empty query is accepted. -/
theorem c10_empty_query_amended_witness :
    get_product_similarity "" "Widget Deluxe" = 1
    ∧ (scrape_site c10okCand "" "US" 0).isSome = true :=
  ⟨c10_empty_query_amended.1 "Widget Deluxe" (by decide),
   (c10_empty_query_amended.2 c10okCand "US" 0 { jsonLdScripts := [c10okScript] }
     { link := "https://w.example/p", price := "7", currency := some "USD",
       productName := "Widget Deluxe", availability := some "" }
     rfl (by decide) (by decide)).2⟩

/-- Fixture for the C2 counterexample: a JSON-LD Product declaring the
negative price `-5`. -/
def c2negScript : JsonLdScriptData :=
  { isProduct := true
    name := some "Neg Widget 2000"
    offersPrice := some (JVal.jstr "-5") }

/-- Fixture for the C2 counterexample: a JSON-LD Product declaring the
price `inf`, which CPython's `float()` accepts as positive infinity. -/
def c2infScript : JsonLdScriptData :=
  { isProduct := true
    name := some "Inf Widget 2000"
    offersPrice := some (JVal.jstr "inf") }

/-- Fixture for the C2 counterexample: the candidate serving
`c2negScript`. -/
def c2negCand : Candidate :=
  { name := "X"
    url := "https://x.example/p"
    outcome := .http 200 { jsonLdScripts := [c2negScript] } }

/-- Fixture for the C2 counterexample: the candidate serving
`c2infScript`. -/
def c2infCand : Candidate :=
  { name := "XI"
    url := "https://xi.example/p"
    outcome := .http 200 { jsonLdScripts := [c2infScript] } }

/-- Fixture for the C2 counterexample: the returned result with the
negative price string. -/
def c2negRes : ProductResult :=
  { link := "https://x.example/p"
    price := "-5"
    currency := "USD"
    productName := "Neg Widget 2000"
    source := some "X"
    availability := some "" }

/-- Fixture for the C2 counterexample: the returned result with the
infinite price string. -/
def c2infRes : ProductResult :=
  { link := "https://xi.example/p"
    price := "inf"
    currency := "USD"
    productName := "Inf Widget 2000"
    source := some "XI"
    availability := some "" }

/-- C2, counterexample: pages declaring the JSON-LD prices `-5` and `inf`
both make `fetch_prices` return their results — the first price parses to
a negative number and the second to positive infinity, so neither
non-negativity nor finiteness holds of returned price strings. -/
theorem c2_counterexample :
    fetch_prices "US" "widget 2000" [c2negCand, c2infCand] = some [c2negRes, c2infRes]
    ∧ parseFloat c2negRes.price = some (.num (-5))
    ∧ pyLt (.num (-5)) (.num 0) = true
    ∧ parseFloat c2infRes.price = some (.inf false)
    ∧ (PyFloat.inf false).isFinite = false := by decide

/-- C2, amended: every result a successful `fetch_prices` call returns
has a price string that Python's `float()` accepts (the parsed value may
be negative, infinite, or NaN), a non-empty currency, and a populated
source field. -/
theorem c2_result_invariants (country query : String) (cands : List Candidate)
    (l : List ProductResult) (h : fetch_prices country query cands = some l) :
    ∀ r ∈ l, (∃ q : PyFloat, parseFloat r.price = some q)
      ∧ r.currency ≠ "" ∧ r.source ≠ none := by
  obtain ⟨u, hd, hl⟩ := fetch_prices_eq_some h
  subst hl
  intro r hr
  have hr2 : r ∈ (u.insertionSort priceOrder).map Prod.fst := List.mem_of_mem_take hr
  obtain ⟨p, hp, hpr⟩ := List.mem_map.mp hr2
  have hpu : p ∈ u := (List.perm_insertionSort priceOrder u).mem_iff.mp hp
  have hmem := dedupResults_mem hd p hpu
  subst hpr
  refine ⟨⟨p.2, hmem.1⟩, ?_, ?_⟩
  · have hv := hmem.2
    rw [validResults_eq] at hv
    obtain ⟨c, -, hc⟩ := List.mem_filterMap.mp hv
    obtain ⟨soup, rec, -, -, -, hres⟩ := scrape_site_some_iff.mp hc
    rw [hres]
    exact pyOr_ne_empty (get_currency_ne_empty country)
  · have hv := hmem.2
    rw [validResults_eq] at hv
    obtain ⟨c, -, hc⟩ := List.mem_filterMap.mp hv
    obtain ⟨soup, rec, -, -, -, hres⟩ := scrape_site_some_iff.mp hc
    rw [hres]
    simp [mkProductResult]

/-- Fixture for the C2 witness: a well-behaved JSON-LD product page. -/
def c2okScript : JsonLdScriptData :=
  { isProduct := true
    name := some "Pixel Tab 11"
    offersPrice := some (JVal.jstr "329.99")
    offersPriceCurrency := some (some "USD") }

/-- Fixture for the C2 witness: the returned result. -/
def c2okRes : ProductResult :=
  { link := "https://shop.example/p"
    price := "329.99"
    currency := "USD"
    productName := "Pixel Tab 11"
    source := some "Shop"
    availability := some "" }

/-- Fixture for the C2 witness: the candidate serving `c2okScript`. -/
def c2okCand : Candidate :=
  { name := "Shop"
    url := "https://shop.example/p"
    outcome := .http 200 { jsonLdScripts := [c2okScript] } }

/-- Witness for the amended C2 at a concrete input: the single returned
result has a `float()`-accepted price, a currency, and a source. -/
theorem c2_result_invariants_witness :
    fetch_prices "US" "pixel tab 11" [c2okCand] = some [c2okRes]
    ∧ ((∃ q : PyFloat, parseFloat c2okRes.price = some q)
        ∧ c2okRes.currency ≠ "" ∧ c2okRes.source ≠ none) :=
  ⟨by decide,
   c2_result_invariants "US" "pixel tab 11" [c2okCand] [c2okRes] (by decide)
     c2okRes (by simp)⟩

/-- Parsed value of a result's price string (the placeholder `num 0` is
never exercised for results of a successful call, whose prices all
parse). -/
def priceNum (r : ProductResult) : PyFloat := (parseFloat r.price).getD (.num 0)

/-! ## Order facts about `pyLt`/`pyEq` away from NaN

IEEE `<` is not transitive once NaN is involved (every comparison with
NaN is false), so the sortedness of the price sort is only provable — and
only true of the program — when no accepted price is NaN.  The lemmas
below isolate the total-preorder reasoning valid away from NaN. -/

/-- A true `<` involves no NaN. -/
theorem pyLt_isNan_false {a b : PyFloat} (h : pyLt a b = true) :
    a.isNan = false ∧ b.isNan = false := by
  cases a <;> cases b <;> simp_all [pyLt, PyFloat.isNan]

/-- IEEE `<` is asymmetric. -/
theorem pyLt_asymm {a b : PyFloat} (h : pyLt a b = true) : pyLt b a = false := by
  cases a with
  | nan => cases b <;> simp_all [pyLt]
  | inf sa => cases b with
    | nan => simp_all [pyLt]
    | inf sb => cases sa <;> cases sb <;> simp_all [pyLt]
    | num y => cases sa <;> simp_all [pyLt]
  | num x => cases b with
    | nan => simp_all [pyLt]
    | inf sb => cases sb <;> simp_all [pyLt]
    | num y =>
      simp only [pyLt, decide_eq_true_eq] at h
      simp only [pyLt, decide_eq_false_iff_not, not_lt]
      exact le_of_lt h

/-- Away from NaN, a failed `<` in one direction gives `≤` in the
other. -/
theorem pyLe_of_not_lt {a b : PyFloat} (ha : a.isNan = false) (hb : b.isNan = false)
    (h : pyLt b a = false) : pyLe a b = true := by
  cases a with
  | nan => simp [PyFloat.isNan] at ha
  | inf sa => cases b with
    | nan => simp [PyFloat.isNan] at hb
    | inf sb => cases sa <;> cases sb <;> simp_all [pyLt, pyLe, pyEq]
    | num y => cases sa <;> simp_all [pyLt, pyLe, pyEq]
  | num x => cases b with
    | nan => simp [PyFloat.isNan] at hb
    | inf sb => cases sb <;> simp_all [pyLt, pyLe, pyEq]
    | num y =>
      simp only [pyLt, decide_eq_false_iff_not, not_lt] at h
      simp only [pyLe, pyLt, pyEq, Bool.or_eq_true, decide_eq_true_eq]
      rcases lt_or_eq_of_le h with h1 | h1
      · exact Or.inl h1
      · exact Or.inr h1

/-- Transitivity of the failed-`<` relation through a non-NaN middle
element (it fails with a NaN middle, which is what breaks the sort). -/
theorem pyLt_trans_neg {a b c : PyFloat} (hb : b.isNan = false)
    (h1 : pyLt b a = false) (h2 : pyLt c b = false) : pyLt c a = false := by
  cases b with
  | nan => simp [PyFloat.isNan] at hb
  | inf sb => cases a with
    | nan => cases c <;> simp [pyLt]
    | inf sa => cases c with
      | nan => simp [pyLt]
      | inf sc => cases sa <;> cases sb <;> cases sc <;> simp_all [pyLt]
      | num z => cases sa <;> cases sb <;> simp_all [pyLt]
    | num x => cases c with
      | nan => simp [pyLt]
      | inf sc => cases sb <;> cases sc <;> simp_all [pyLt]
      | num z => cases sb <;> simp_all [pyLt]
  | num y => cases a with
    | nan => cases c <;> simp [pyLt]
    | inf sa => cases c with
      | nan => simp [pyLt]
      | inf sc => cases sa <;> cases sc <;> simp_all [pyLt]
      | num z => cases sa <;> simp_all [pyLt]
    | num x => cases c with
      | nan => simp [pyLt]
      | inf sc => cases sc <;> simp_all [pyLt]
      | num z =>
        simp only [pyLt, decide_eq_false_iff_not, not_lt] at h1 h2 ⊢
        linarith

/-- Python-equal values are not `<`-related (in the direction the sort
comparator tests). -/
theorem pyEq_not_lt {a b : PyFloat} (h : pyEq a b = true) : pyLt b a = false := by
  cases a with
  | nan => cases b <;> simp_all [pyEq]
  | inf sa => cases b with
    | nan => simp_all [pyEq]
    | inf sb => cases sa <;> cases sb <;> simp_all [pyEq, pyLt]
    | num y => simp_all [pyEq]
  | num x => cases b with
    | nan => simp_all [pyEq]
    | inf sb => simp_all [pyEq]
    | num y =>
      simp only [pyEq, decide_eq_true_eq] at h
      simp [pyLt, h]

/-- Python equality is reflexive away from NaN. -/
theorem pyEq_refl_nonNan {a : PyFloat} (ha : a.isNan = false) : pyEq a a = true := by
  cases a <;> simp_all [pyEq, PyFloat.isNan]

/-- Python equality is symmetric. -/
theorem pyEq_symm {a b : PyFloat} : pyEq a b = pyEq b a := by
  cases a <;> cases b <;> simp [pyEq, eq_comm, Bool.beq_comm]

/-- Ordered insertion preserves sortedness when no involved price is
NaN. -/
theorem pairwise_orderedInsert_nonNan {l : List (ProductResult × PyFloat)}
    {a : ProductResult × PyFloat} (ha : a.2.isNan = false)
    (hl : ∀ p ∈ l, p.2.isNan = false) (h : l.Pairwise priceOrder) :
    (l.orderedInsert priceOrder a).Pairwise priceOrder := by
  induction l with
  | nil => simp
  | cons b t ih =>
    rw [List.orderedInsert]
    by_cases hab : priceOrder a b
    · rw [if_pos hab]
      refine List.pairwise_cons.mpr ⟨?_, h⟩
      intro x hx
      rcases List.mem_cons.mp hx with h1 | h2
      · subst h1; exact hab
      · have hbx : priceOrder b x := List.rel_of_pairwise_cons h h2
        exact pyLt_trans_neg (hl b (List.mem_cons_self _ _)) hab hbx
    · rw [if_neg hab]
      have hba : priceOrder b a := by
        unfold priceOrder at hab ⊢
        exact pyLt_asymm (by simpa using hab)
      have hrest := (List.pairwise_cons.mp h)
      refine List.pairwise_cons.mpr
        ⟨?_, ih (fun p hp => hl p (List.mem_cons_of_mem _ hp)) hrest.2⟩
      intro x hx
      rcases (List.mem_orderedInsert _).mp hx with h1 | h2
      · subst h1; exact hba
      · exact hrest.1 x h2

/-- The insertion sort of a NaN-free list is sorted. -/
theorem sorted_insertionSort_nonNan {l : List (ProductResult × PyFloat)}
    (hl : ∀ p ∈ l, p.2.isNan = false) :
    (l.insertionSort priceOrder).Pairwise priceOrder := by
  induction l with
  | nil => simp
  | cons a t ih =>
    rw [List.insertionSort]
    refine pairwise_orderedInsert_nonNan (hl a (List.mem_cons_self _ _)) ?_
      (ih (fun p hp => hl p (List.mem_cons_of_mem _ hp)))
    intro p hp
    exact hl p (List.mem_cons_of_mem _ ((List.mem_insertionSort _).mp hp))

/-- A two-element sublist of a duplicate-free list survives truncation
when its later element survives. -/
theorem pair_sublist_take {α : Type} {s : List α} {n : Nat} {x y : α}
    (hnd : s.Nodup) (hs : List.Sublist [x, y] s) (hy : y ∈ s.take n) :
    List.Sublist [x, y] (s.take n) := by
  induction s generalizing n with
  | nil => simp at hs
  | cons hd t ih =>
    cases n with
    | zero => simp at hy
    | succ m =>
      simp only [List.take_succ_cons] at hy ⊢
      cases hs with
      | cons _ htail =>
        have hyt : y ∈ t := htail.subset (by simp)
        have hyh : y ≠ hd := by
          intro he
          exact (List.nodup_cons.mp hnd).1 (he ▸ hyt)
        have hy2 : y ∈ t.take m := by
          rcases List.mem_cons.mp hy with h1 | h2
          · exact absurd h1 hyh
          · exact h2
        exact (ih (List.nodup_cons.mp hnd).2 htail hy2).cons _
      | cons₂ _ htail =>
        have hyt : y ∈ t := List.singleton_sublist.mp htail
        have hyh : y ≠ x := by
          intro he
          exact (List.nodup_cons.mp hnd).1 (he ▸ hyt)
        have hy2 : y ∈ t.take m := by
          rcases List.mem_cons.mp hy with h1 | h2
          · exact absurd h1 hyh
          · exact h2
        exact List.Sublist.cons₂ _ (List.singleton_sublist.mpr hy2)

/-- Fixture for the C3 counterexample: JSON-LD script, `Gizmo 5 Alpha`
at price 5. -/
def c3nanScriptA : JsonLdScriptData :=
  { isProduct := true
    name := some "Gizmo 5 Alpha"
    offersPrice := some (JVal.jstr "5") }

/-- Fixture for the C3 counterexample: JSON-LD script, `Gizmo 5 Beta`
at price `nan`, which CPython's `float()` accepts as NaN. -/
def c3nanScriptB : JsonLdScriptData :=
  { isProduct := true
    name := some "Gizmo 5 Beta"
    offersPrice := some (JVal.jstr "nan") }

/-- Fixture for the C3 counterexample: JSON-LD script, `Gizmo 5 Gamma`
at price 3. -/
def c3nanScriptC : JsonLdScriptData :=
  { isProduct := true
    name := some "Gizmo 5 Gamma"
    offersPrice := some (JVal.jstr "3") }

/-- Fixture for the C3 counterexample: candidate serving
`c3nanScriptA`. -/
def c3nanCandA : Candidate :=
  { name := "n1"
    url := "https://n1.example/p"
    outcome := .http 200 { jsonLdScripts := [c3nanScriptA] } }

/-- Fixture for the C3 counterexample: candidate serving
`c3nanScriptB`. -/
def c3nanCandB : Candidate :=
  { name := "n2"
    url := "https://n2.example/p"
    outcome := .http 200 { jsonLdScripts := [c3nanScriptB] } }

/-- Fixture for the C3 counterexample: candidate serving
`c3nanScriptC`. -/
def c3nanCandC : Candidate :=
  { name := "n3"
    url := "https://n3.example/p"
    outcome := .http 200 { jsonLdScripts := [c3nanScriptC] } }

/-- Fixture for the C3 counterexample: result with price 5. -/
def c3nanResA : ProductResult :=
  { link := "https://n1.example/p"
    price := "5"
    currency := "USD"
    productName := "Gizmo 5 Alpha"
    source := some "n1"
    availability := some "" }

/-- Fixture for the C3 counterexample: result with price `nan`. -/
def c3nanResB : ProductResult :=
  { link := "https://n2.example/p"
    price := "nan"
    currency := "USD"
    productName := "Gizmo 5 Beta"
    source := some "n2"
    availability := some "" }

/-- Fixture for the C3 counterexample: result with price 3. -/
def c3nanResC : ProductResult :=
  { link := "https://n3.example/p"
    price := "3"
    currency := "USD"
    productName := "Gizmo 5 Gamma"
    source := some "n3"
    availability := some "" }

/-- C3, counterexample: a page-supplied price string `nan` passes
`float()` and the sort, and the returned list is not ascending: with
accepted prices 5, NaN, 3 (in candidate order) the call returns them
unchanged — the observed CPython output for these keys — and both
adjacent pairs violate the claimed ordering, since every comparison with
NaN is false. -/
theorem c3_counterexample :
    fetch_prices "US" "gizmo 5" [c3nanCandA, c3nanCandB, c3nanCandC]
      = some [c3nanResA, c3nanResB, c3nanResC]
    ∧ parseFloat c3nanResB.price = some PyFloat.nan
    ∧ pyLe (priceNum c3nanResB) (priceNum c3nanResC) = false
    ∧ ¬ ([c3nanResA, c3nanResB, c3nanResC] : List ProductResult).Chain'
        (fun a b => pyLe (priceNum a) (priceNum b) = true) := by
  refine ⟨by decide, by decide, by decide, ?_⟩
  intro hc
  rcases List.chain'_cons.mp hc with ⟨-, h2⟩
  rcases List.chain'_cons.mp h2 with ⟨h3, -⟩
  exact absurd h3 (by decide)

/-- C3, amended: when no accepted price parses to NaN, the returned list
is sorted ascending by the parsed price value (adjacent pairs satisfy
IEEE `≤`), and the sort is stable: two kept results with Python-equal
prices that both survive truncation appear in the returned list in their
first-seen (pre-sort) order. -/
theorem c3_sorted_stable (country query : String) (cands : List Candidate)
    (l : List ProductResult) (h : fetch_prices country query cands = some l)
    (hnn : ∀ r ∈ validResults country query cands, (priceNum r).isNan = false) :
    l.Chain' (fun a b => pyLe (priceNum a) (priceNum b) = true)
    ∧ (∀ u, dedupResults (validResults country query cands) [] = some u →
        ∀ a b : ProductResult × PyFloat, List.Sublist [a, b] u → pyEq a.2 b.2 = true →
          a.1 ∈ l → b.1 ∈ l → List.Sublist [a.1, b.1] l) := by
  obtain ⟨u, hd, hl⟩ := fetch_prices_eq_some h
  have hperm : (u.insertionSort priceOrder).Perm u := List.perm_insertionSort priceOrder u
  have hval : ∀ p ∈ u.insertionSort priceOrder, parseFloat p.1.price = some p.2 :=
    fun p hp => (dedupResults_mem hd p (hperm.mem_iff.mp hp)).1
  have hunn : ∀ p ∈ u, p.2.isNan = false := by
    intro p hp
    have hm := dedupResults_mem hd p hp
    have h2 := hnn p.1 hm.2
    unfold priceNum at h2
    rw [hm.1] at h2
    simpa using h2
  constructor
  · have hsort : (u.insertionSort priceOrder).Pairwise priceOrder :=
      sorted_insertionSort_nonNan hunn
    have hpair : ((u.insertionSort priceOrder).map Prod.fst).Pairwise
        (fun a b => pyLe (priceNum a) (priceNum b) = true) := by
      rw [List.pairwise_map]
      refine hsort.imp_of_mem ?_
      intro a b ha hb hle
      have hva := hval a ha
      have hvb := hval b hb
      have hna := hunn a (hperm.mem_iff.mp ha)
      have hnb := hunn b (hperm.mem_iff.mp hb)
      simp only [priceNum, hva, hvb, Option.getD_some]
      exact pyLe_of_not_lt hna hnb hle
    subst hl
    exact (List.Pairwise.sublist (List.take_sublist _ _) hpair).chain'
  · intro u2 hd2 a b hab heq ha hb
    rw [hd] at hd2
    injection hd2 with hu
    subst hu
    have hobs : List.Sublist [a, b] (u.insertionSort priceOrder) :=
      List.sublist_insertionSort (List.pairwise_pair.mpr (pyEq_not_lt heq)) hab
    have hmap : List.Sublist [a.1, b.1] ((u.insertionSort priceOrder).map Prod.fst) := by
      have := hobs.map Prod.fst
      simpa using this
    have hndu : (u.map Prod.fst).Nodup := by
      have hkeys := (dedupResults_pairwise hd).2
      have hne : u.Pairwise (fun p p2 => p.1 ≠ p2.1) := by
        refine hkeys.imp_of_mem ?_
        intro p p2 hp hp2 hk he
        have h1 := (dedupResults_mem hd p hp).1
        have h2 := (dedupResults_mem hd p2 hp2).1
        rw [he] at h1
        rw [h1] at h2
        injection h2 with h3
        rw [he, h3] at hk
        rw [keyEq, pyEq_refl_nonNan (hunn p2 hp2)] at hk
        simp at hk
      exact List.pairwise_map.mpr hne
    have hnds : ((u.insertionSort priceOrder).map Prod.fst).Nodup :=
      ((hperm.map Prod.fst).nodup_iff).mpr hndu
    subst hl
    exact pair_sublist_take hnds hmap hb

/-- Fixture for the C3 witness: JSON-LD script, `Widget Blue 7` at 30. -/
def c3scriptA : JsonLdScriptData :=
  { isProduct := true
    name := some "Widget Blue 7"
    offersPrice := some (JVal.jstr "30") }

/-- Fixture for the C3 witness: JSON-LD script, `Widget Red 7` at 10.50. -/
def c3scriptB : JsonLdScriptData :=
  { isProduct := true
    name := some "Widget Red 7"
    offersPrice := some (JVal.jstr "10.50") }

/-- Fixture for the C3 witness: JSON-LD script, `Widget Green 7` at 30,
an equal-price tie with `c3scriptA`. -/
def c3scriptC : JsonLdScriptData :=
  { isProduct := true
    name := some "Widget Green 7"
    offersPrice := some (JVal.jstr "30") }

/-- Fixture for the C3 witness: candidate serving `c3scriptA`. -/
def c3candA : Candidate :=
  { name := "s1"
    url := "https://s1.example/p"
    outcome := .http 200 { jsonLdScripts := [c3scriptA] } }

/-- Fixture for the C3 witness: candidate serving `c3scriptB`. -/
def c3candB : Candidate :=
  { name := "s2"
    url := "https://s2.example/p"
    outcome := .http 200 { jsonLdScripts := [c3scriptB] } }

/-- Fixture for the C3 witness: candidate serving `c3scriptC`. -/
def c3candC : Candidate :=
  { name := "s3"
    url := "https://s3.example/p"
    outcome := .http 200 { jsonLdScripts := [c3scriptC] } }

/-- Fixture for the C3 witness: result of `c3candA`. -/
def c3resA : ProductResult :=
  { link := "https://s1.example/p"
    price := "30"
    currency := "USD"
    productName := "Widget Blue 7"
    source := some "s1"
    availability := some "" }

/-- Fixture for the C3 witness: result of `c3candB`. -/
def c3resB : ProductResult :=
  { link := "https://s2.example/p"
    price := "10.50"
    currency := "USD"
    productName := "Widget Red 7"
    source := some "s2"
    availability := some "" }

/-- Fixture for the C3 witness: result of `c3candC`. -/
def c3resC : ProductResult :=
  { link := "https://s3.example/p"
    price := "30"
    currency := "USD"
    productName := "Widget Green 7"
    source := some "s3"
    availability := some "" }

/-- Witness for the amended C3 at a concrete input: three NaN-free
candidates (two of them an equal-price tie) come back sorted ascending
with the tie in first-seen order, and the theorem certifies the
adjacent-pair ordering. -/
theorem c3_sorted_stable_witness :
    fetch_prices "US" "widget 7" [c3candA, c3candB, c3candC]
      = some [c3resB, c3resA, c3resC]
    ∧ ([c3resB, c3resA, c3resC] : List ProductResult).Chain'
        (fun a b => pyLe (priceNum a) (priceNum b) = true) :=
  ⟨by decide,
   (c3_sorted_stable "US" "widget 7" [c3candA, c3candB, c3candC]
     [c3resB, c3resA, c3resC] (by decide) (by decide)).1⟩

/-- C4: no two returned results have Python-equal deduplication keys
(normalised name prefix paired with the parsed price, compared as the
code's seen-set compares them); the deduplication stage keeps a sublist
of the valid results (so every survivor is an original, in order); and
every valid result whose key is Python-unequal to the keys of all earlier
valid results is kept — first-seen wins, later duplicates are dropped. -/
theorem c4_dedup_total (country query : String) (cands : List Candidate)
    (l : List ProductResult) (h : fetch_prices country query cands = some l) :
    l.Pairwise (fun a b => keyEq (dedupKey a) (dedupKey b) = false)
    ∧ (∀ u, dedupResults (validResults country query cands) [] = some u →
        (u.map Prod.fst).Sublist (validResults country query cands)
        ∧ (∀ pre r post, validResults country query cands = pre ++ r :: post →
            (∀ x ∈ pre, keyEq (dedupKey x) (dedupKey r) = false) →
            r ∈ u.map Prod.fst)) := by
  obtain ⟨u, hd, hl⟩ := fetch_prices_eq_some h
  constructor
  · have hkeys := (dedupResults_pairwise hd).2
    have hP : u.Pairwise (fun p p2 => keyEq (dedupKey p.1) (dedupKey p2.1) = false) := by
      refine hkeys.imp_of_mem ?_
      intro p p2 hp hp2 hk
      have e1 := (dedupResults_mem hd p hp).1
      have e2 := (dedupResults_mem hd p2 hp2).1
      simp only [dedupKey, e1, e2, Option.getD_some]
      exact hk
    have hperm : (u.insertionSort priceOrder).Perm u := List.perm_insertionSort priceOrder u
    have hPs : (u.insertionSort priceOrder).Pairwise
        (fun p p2 => keyEq (dedupKey p.1) (dedupKey p2.1) = false) := by
      refine (hperm.pairwise_iff ?_).mpr hP
      intro a b hab
      rw [keyEq] at hab ⊢
      rw [pyEq_symm]
      rcases Bool.and_eq_false_iff.mp hab with h1 | h1
      · refine Bool.and_eq_false_iff.mpr (Or.inl ?_)
        simpa [eq_comm] using h1
      · exact Bool.and_eq_false_iff.mpr (Or.inr h1)
    have hmap : ((u.insertionSort priceOrder).map Prod.fst).Pairwise
        (fun a b => keyEq (dedupKey a) (dedupKey b) = false) := List.pairwise_map.mpr hPs
    subst hl
    exact List.Pairwise.sublist (List.take_sublist _ _) hmap
  · intro u2 hd2
    rw [hd] at hd2
    injection hd2 with hu
    subst hu
    refine ⟨dedupResults_sublist hd, ?_⟩
    intro pre r post hsplit hpre
    exact dedupResults_first hd pre r post hsplit hpre (by simp)

/-- Fixture for the C4 witness: JSON-LD script, `Widget Case 5` at 30. -/
def c4scriptA : JsonLdScriptData :=
  { isProduct := true
    name := some "Widget Case 5"
    offersPrice := some (JVal.jstr "30") }

/-- Fixture for the C4 witness: JSON-LD script with the near-identical
name `Widget  Case 5` (double space) at the same price, so its
deduplication key coincides with the one of `c4scriptA`. -/
def c4scriptB : JsonLdScriptData :=
  { isProduct := true
    name := some "Widget  Case 5"
    offersPrice := some (JVal.jstr "30") }

/-- Fixture for the C4 witness: candidate serving `c4scriptA`. -/
def c4candA : Candidate :=
  { name := "first"
    url := "https://first.example/p"
    outcome := .http 200 { jsonLdScripts := [c4scriptA] } }

/-- Fixture for the C4 witness: candidate serving `c4scriptB`. -/
def c4candB : Candidate :=
  { name := "second"
    url := "https://second.example/p"
    outcome := .http 200 { jsonLdScripts := [c4scriptB] } }

/-- Fixture for the C4 witness: the surviving first-seen result. -/
def c4resA : ProductResult :=
  { link := "https://first.example/p"
    price := "30"
    currency := "USD"
    productName := "Widget Case 5"
    source := some "first"
    availability := some "" }

/-- Witness for C4 at a concrete input: of two candidates whose extracted
names normalise to the same key at the same price, only the first-seen
result is returned, and the theorem certifies the key distinctness. -/
theorem c4_dedup_total_witness :
    fetch_prices "US" "widget case 5" [c4candA, c4candB] = some [c4resA]
    ∧ ([c4resA] : List ProductResult).Pairwise
        (fun a b => keyEq (dedupKey a) (dedupKey b) = false) :=
  ⟨by decide,
   (c4_dedup_total "US" "widget case 5" [c4candA, c4candB] [c4resA] (by decide)).1⟩
